import Mathlib

/-!
The leap relay: tunnel protocol, registry and local forwarding

A shallow embedding of the relay core of `dnsge/leap`:

* `common/websocket.go`: the wire messages, `MessageType`, `ErrorCode`;
* `server/tunnel.go`: `Tunnel`, `generateToken`, `sendRawRequest`, `handleRawMessage`;
* `server/proxy.go`: `handleError`;
* `server/server.go`: the tunnel registry, `newTunnelRequest`, `connectTunnel`,
  `interceptRequest`;
* `client/client.go`: `handleRequest`.

Go library behaviour the code relies on (`encoding/base64`, `encoding/json`,
`strings`, `math/rand`) is modelled in the first sections.
-/

namespace Leap

/-! ## Bytes and `encoding/base64` (`base64.StdEncoding`) -/

/-- A Go `byte`. -/
abbrev Byte := Fin 256

/-- Go's `byte(x)` conversion of an unsigned integer: truncation to 8 bits. -/
def toByte (x : Nat) : Byte := ⟨x % 256, Nat.mod_lt x (by decide)⟩

/-- The alphabet of `base64.StdEncoding` (`encodeStd`). -/
def encodeStd : List Char :=
  "ABCDEFGHIJKLMNOPQRSTUVWXYZabcdefghijklmnopqrstuvwxyz0123456789+/".data

/-- The padding character of `base64.StdEncoding` (`StdPadding`). -/
def padChar : Char := '='

/-- Lookup `enc.encode[v]`; every index the encoder uses is masked with `0x3F`. -/
def encodeDigit (v : Nat) : Char := encodeStd.getD v 'A'

/-- The table `enc.decodeMap`: the index of an alphabet character, `0xff` for
every other character. -/
def decodeMap (c : Char) : Nat :=
  let i := encodeStd.indexOf c
  if i < 64 then i else 0xff

/-- `Encoding.Encode` for `StdEncoding`: full 3-byte groups become four digits,
a remainder of one or two bytes is encoded and padded with `=`. -/
def encode : List Byte → List Char
  | a :: b :: c :: rest =>
    let val := a.val <<< 16 ||| b.val <<< 8 ||| c.val
    encodeDigit (val >>> 18 &&& 0x3F) :: encodeDigit (val >>> 12 &&& 0x3F) ::
      encodeDigit (val >>> 6 &&& 0x3F) :: encodeDigit (val &&& 0x3F) :: encode rest
  | [a, b] =>
    let val := a.val <<< 16 ||| b.val <<< 8
    [encodeDigit (val >>> 18 &&& 0x3F), encodeDigit (val >>> 12 &&& 0x3F),
      encodeDigit (val >>> 6 &&& 0x3F), padChar]
  | [a] =>
    let val := a.val <<< 16
    [encodeDigit (val >>> 18 &&& 0x3F), encodeDigit (val >>> 12 &&& 0x3F), padChar, padChar]
  | [] => []

/-- `Encoding.EncodeToString`. -/
def EncodeToString (src : List Byte) : String := String.mk (encode src)

/-- The error of a failed decode (`base64.CorruptInputError`; the byte offset it
carries is not modelled). -/
inductive DecodeError where
  | corruptInput
  deriving DecidableEq

/-- The tail of `decodeQuantum`: the 6-bit values collected in `dbuf` (missing
ones are zero) are packed into 24 bits, of which `dlen - 1` bytes are output.
`StdEncoding` is not strict, so left-over bits are not checked. -/
def quantumBytes (dbuf : List Nat) : List Byte :=
  let val := dbuf.getD 0 0 <<< 18 ||| dbuf.getD 1 0 <<< 12 ||| dbuf.getD 2 0 <<< 6 ||| dbuf.getD 3 0
  ([toByte (val >>> 16), toByte (val >>> 8), toByte (val >>> 0)]).take (dbuf.length - 1)

/-- Is the character one of the line breaks the decoder skips? -/
def isNewline (c : Char) : Bool := c == '\n' || c == '\r'

/-- The padding branch of `decodeQuantum`, entered after a first `=` was consumed
with `dbuf` holding the digits read so far; `rest` is the input after that `=`. -/
def decodePadding (dbuf : List Nat) (rest : List Char) : Except DecodeError (List Byte) :=
  if dbuf.length < 2 then
    .error .corruptInput                    -- incorrect padding
  else
    let afterPad : Option (List Char) :=
      if dbuf.length = 2 then
        -- "==" is expected, the first "=" is already consumed
        match rest.dropWhile isNewline with
        | [] => none                        -- not enough padding
        | c :: rest2 => if c = padChar then some rest2 else none
      else some rest
    match afterPad with
    | none => .error .corruptInput
    | some rest3 =>
      match rest3.dropWhile isNewline with
      | [] => .ok (quantumBytes dbuf)
      | _ :: _ => .error .corruptInput      -- trailing garbage

/-- `Encoding.Decode` for `StdEncoding`: the loop of `Decode` over `decodeQuantum`,
with `dbuf` the digits of the quantum being read. Line breaks are skipped, a
quantum is four digits, padding is required and ends the input. -/
def decodeLoop : List Nat → List Char → Except DecodeError (List Byte)
  | dbuf, [] => if dbuf.length = 0 then .ok [] else .error .corruptInput
  | dbuf, c :: rest =>
    let out := decodeMap c
    if out ≠ 0xff then
      if dbuf.length + 1 = 4 then
        match decodeLoop [] rest with
        | .ok more => .ok (quantumBytes (dbuf ++ [out]) ++ more)
        | .error e => .error e
      else decodeLoop (dbuf ++ [out]) rest
    else if isNewline c then decodeLoop dbuf rest
    else if c ≠ padChar then .error .corruptInput
    else decodePadding dbuf rest

/-- `Encoding.DecodeString`. -/
def DecodeString (s : String) : Except DecodeError (List Byte) := decodeLoop [] s.data

/-! ## `encoding/json`: values, `Marshal` and `Unmarshal` into the message structs -/

/-- A JSON text after the scanner has accepted it. Number literals are kept in
two classes, because `Unmarshal` into a Go `int` accepts only a literal in plain
integer form (`strconv.ParseInt`). Object members are kept in document order. -/
inductive JValue where
  | null
  | bool (b : Bool)
  | int (n : Int)
  | float (literal : String)
  | str (s : String)
  | arr (items : List JValue)
  | obj (members : List (String × JValue))

/-- The bytes handed to `json.Unmarshal`: `none` when they are not a valid JSON
text, otherwise the value they spell. -/
abbrev Raw := Option JValue

/-- Errors returned by `json.Unmarshal`. -/
inductive UnmarshalError where
  | invalidJSON
  | typeMismatch
  deriving DecidableEq

/-- The rune folding `encoding/json` uses when no field has exactly the name of a
key: ASCII letters are upper-cased, and the two non-ASCII runes that fold to an
ASCII letter (U+017F to `S`, U+212A to `K`) are mapped to it. -/
def foldRune (c : Char) : Char :=
  if c = Char.ofNat 0x17F then 'S' else if c = Char.ofNat 0x212A then 'K' else c.toUpper

/-- Does the object key select the struct field called `field`? All field names of
the message structs are lower-case ASCII and pairwise different under folding, so
exact match and folded match coincide with this test. -/
def keyMatches (field key : String) : Bool :=
  key.data.map foldRune == field.data.map foldRune

/-- Decoding of a member value into a Go `string` field holding `cur`. -/
def decodeString (cur : String) : JValue → Except UnmarshalError String
  | .null => .ok cur
  | .str s => .ok s
  | _ => .error .typeMismatch

/-- Decoding of a member value into a Go `int` field (64 bits) holding `cur`. -/
def decodeInt (cur : Int) : JValue → Except UnmarshalError Int
  | .null => .ok cur
  | .int n => if -9223372036854775808 ≤ n ∧ n ≤ 9223372036854775807 then .ok n
              else .error .typeMismatch
  | _ => .error .typeMismatch

/-- The members of an object are decoded in document order, each by `step` into
the struct built so far (a later member overwrites an earlier one); a member that
does not fit its field makes the whole `Unmarshal` return an error. -/
def decodeMembers {α : Type} (step : α → String → JValue → Except UnmarshalError α) :
    α → List (String × JValue) → Except UnmarshalError α
  | v, [] => .ok v
  | v, (key, x) :: rest =>
    match step v key x with
    | .ok v2 => decodeMembers step v2 rest
    | .error e => .error e

/-- The part of `json.Unmarshal(data, &v)` common to all struct targets, `v` being
a fresh zero value: `null` leaves it as it is, an object is decoded member by
member, any other value is a type mismatch. -/
def unmarshalStruct {α : Type} (zero : α)
    (step : α → String → JValue → Except UnmarshalError α) : Raw → Except UnmarshalError α
  | none => .error .invalidJSON
  | some .null => .ok zero
  | some (.obj members) => decodeMembers step zero members
  | some _ => .error .typeMismatch

/-! ## `strings` and `math/rand` -/

/-- The rune mapping `unicode.ToLower` of the Go release the server is built with.
Its case table is not among the sources and is taken as a parameter, together with
the two facts about it that the server relies on: on ASCII it lower-cases `A`-`Z`
and fixes every other rune, and a lower-cased rune is its own lower case. -/
structure CaseTable where
  toLower : Char → Char
  ascii : ∀ c : Char, c.toNat < 128 → toLower c = c.toLower
  idem : ∀ c : Char, toLower (toLower c) = toLower c

/-- `strings.ToLower`: `unicode.ToLower` applied rune by rune. -/
def ToLower (u : CaseTable) (s : String) : String := String.mk (s.data.map u.toLower)

/-- The part of the case table for ASCII and Latin-1: `A`-`Z` and the letters
U+00C0 to U+00DE (without the multiplication sign U+00D7) are moved up by 32,
every other rune is fixed. -/
def latin1 : CaseTable where
  toLower c :=
    if 0xC0 ≤ c.toNat ∧ c.toNat ≤ 0xDE ∧ c.toNat ≠ 0xD7 then Char.ofNat (c.toNat + 32)
    else c.toLower
  ascii := by
    intro c h
    have : ¬ (0xC0 ≤ c.toNat ∧ c.toNat ≤ 0xDE ∧ c.toNat ≠ 0xD7) := by omega
    simp only [this, if_false]
  idem := by
    intro c
    by_cases h : 0xC0 ≤ c.toNat ∧ c.toNat ≤ 0xDE ∧ c.toNat ≠ 0xD7
    · have hc : c = Char.ofNat c.toNat := (Char.ofNat_toNat c).symm
      obtain ⟨h1, h2, h3⟩ := h
      generalize c.toNat = n at hc h1 h2 h3
      subst hc
      interval_cases n <;> rfl
    · by_cases h2 : c.toNat ≥ 65 ∧ c.toNat ≤ 90
      · have hc : c = Char.ofNat c.toNat := (Char.ofNat_toNat c).symm
        obtain ⟨h3, h4⟩ := h2
        generalize c.toNat = n at hc h3 h4
        subst hc
        interval_cases n <;> rfl
      · have h3 : c.toLower = c := by simp [Char.toLower, h2]
        simp only [h, if_false, h3]

/-- `strings.HasSuffix`. -/
def HasSuffix (s suffix : String) : Bool := suffix.data.isSuffixOf s.data

/-- The first element of `strings.Split(s, ".")`: the text before the first dot,
all of `s` when it has none. -/
def firstLabel (s : String) : String := String.mk (s.data.takeWhile (fun c => c != '.'))

/-- The state of the global `math/rand` source: the raw values its next draws
will produce. -/
abbrev Source := Nat → Nat

/-- `rand.Intn(n)`: a value in `[0, n)` and the source after the draw. -/
def Intn (src : Source) (n : Nat) : Nat × Source := (src 0 % n, fun i => src (i + 1))

/-- The loop shared by `generateToken` and `randomSubdomain`: `length` runes, each
`alphabet[rand.Intn(len(alphabet))]`. -/
def randomRunes (alphabet : List Char) : Nat → Source → List Char × Source
  | 0, src => ([], src)
  | length + 1, src =>
    let (i, src1) := Intn src alphabet.length
    let (rest, src2) := randomRunes alphabet length src1
    (alphabet.getD i 'A' :: rest, src2)

/-! ## `common/websocket.go` and `common/api.go` -/

/-- Go `type MessageType int`. -/
abbrev MessageType := Int

def Request : MessageType := 0
def ResponseData : MessageType := 1
def ResponseError : MessageType := 2
def Unknown : MessageType := 3

/-- Go `type ErrorCode int`. -/
abbrev ErrorCode := Int

def Unavailable : ErrorCode := 0
def Timeout : ErrorCode := 1
def InternalError : ErrorCode := 2

/-- Go `WSMessage` (`Type_` is its field `Type`); a field left out of a struct
literal has its zero value. -/
structure WSMessage where
  Type_ : String := ""

/-- `WSMessage.MessageType`. -/
def WSMessage.MessageType (w : WSMessage) : Leap.MessageType :=
  if w.Type_ = "request" then Request
  else if w.Type_ = "response_data" then ResponseData
  else if w.Type_ = "response_error" then ResponseError
  else Unknown

/-- Go `RequestMessage`, with `WSMessage` embedded. -/
structure RequestMessage extends WSMessage where
  Data : String := ""

/-- `NewRequestMessage`. -/
def NewRequestMessage (data : String) : RequestMessage :=
  { toWSMessage := { Type_ := "request" }, Data := data }

/-- Go `ResponseDataMessage`, with `WSMessage` embedded. -/
structure ResponseDataMessage extends WSMessage where
  Response : String := ""

/-- `NewResponseDataMessage`. -/
def NewResponseDataMessage (data : String) : ResponseDataMessage :=
  { toWSMessage := { Type_ := "response_data" }, Response := data }

/-- Go `ResponseErrorMessage`, with `WSMessage` embedded. -/
structure ResponseErrorMessage extends WSMessage where
  Code : ErrorCode := 0

/-- `NewResponseErrorMessage`. -/
def NewResponseErrorMessage (code : ErrorCode) : ResponseErrorMessage :=
  { toWSMessage := { Type_ := "response_error" }, Code := code }

/-- `ResponseDataMessage.DecodeResponse`. -/
def ResponseDataMessage.DecodeResponse (rm : ResponseDataMessage) :
    Except DecodeError (List Byte) :=
  DecodeString rm.Response

/-- Go `SubdomainRequest`. -/
structure SubdomainRequest where
  Subdomain : String := ""

/-- Go `TokenResponse`. -/
structure TokenResponse where
  Subdomain : String := ""
  Token : String := ""

/-! ### The JSON form of the structs (their `json:"..."` tags) -/

/-- `json.Marshal` of a `RequestMessage`: the embedded `type` first, then `data`. -/
def RequestMessage.marshal (m : RequestMessage) : JValue :=
  .obj [("type", .str m.Type_), ("data", .str m.Data)]

/-- `json.Marshal` of a `ResponseDataMessage`. -/
def ResponseDataMessage.marshal (m : ResponseDataMessage) : JValue :=
  .obj [("type", .str m.Type_), ("response", .str m.Response)]

/-- `json.Marshal` of a `ResponseErrorMessage`. -/
def ResponseErrorMessage.marshal (m : ResponseErrorMessage) : JValue :=
  .obj [("type", .str m.Type_), ("code", .int m.Code)]

/-- `json.Marshal` of a `SubdomainRequest`. -/
def SubdomainRequest.marshal (r : SubdomainRequest) : JValue :=
  .obj [("subdomain", .str r.Subdomain)]

/-- `json.Marshal` of a `TokenResponse`. -/
def TokenResponse.marshal (r : TokenResponse) : JValue :=
  .obj [("subdomain", .str r.Subdomain), ("token", .str r.Token)]

/-- One object member decoded into a `WSMessage`: the field the key selects is
set, a key that selects no field is skipped. -/
def WSMessage.decodeMember (m : WSMessage) (key : String) (x : JValue) :
    Except UnmarshalError WSMessage :=
  if keyMatches "type" key then
    match decodeString m.Type_ x with
    | .ok s => .ok { m with Type_ := s }
    | .error e => .error e
  else .ok m

/-- `json.Unmarshal(data, &message)` for `var message WSMessage`. -/
def unmarshalWSMessage : Raw → Except UnmarshalError WSMessage :=
  unmarshalStruct {} WSMessage.decodeMember

/-- One object member decoded into a `RequestMessage`: the field the key selects is
set, a key that selects no field is skipped. -/
def RequestMessage.decodeMember (m : RequestMessage) (key : String) (x : JValue) :
    Except UnmarshalError RequestMessage :=
  if keyMatches "type" key then
    match decodeString m.Type_ x with
    | .ok s => .ok { m with Type_ := s }
    | .error e => .error e
  else if keyMatches "data" key then
    match decodeString m.Data x with
    | .ok s => .ok { m with Data := s }
    | .error e => .error e
  else .ok m

/-- `json.Unmarshal(data, &r)` for `var r RequestMessage`. -/
def unmarshalRequestMessage : Raw → Except UnmarshalError RequestMessage :=
  unmarshalStruct {} RequestMessage.decodeMember

/-- One object member decoded into a `ResponseDataMessage`: the field the key selects is
set, a key that selects no field is skipped. -/
def ResponseDataMessage.decodeMember (m : ResponseDataMessage) (key : String) (x : JValue) :
    Except UnmarshalError ResponseDataMessage :=
  if keyMatches "type" key then
    match decodeString m.Type_ x with
    | .ok s => .ok { m with Type_ := s }
    | .error e => .error e
  else if keyMatches "response" key then
    match decodeString m.Response x with
    | .ok s => .ok { m with Response := s }
    | .error e => .error e
  else .ok m

/-- `json.Unmarshal(data, &r)` for `var r ResponseDataMessage`. -/
def unmarshalResponseDataMessage : Raw → Except UnmarshalError ResponseDataMessage :=
  unmarshalStruct {} ResponseDataMessage.decodeMember

/-- One object member decoded into a `ResponseErrorMessage`: the field the key selects is
set, a key that selects no field is skipped. -/
def ResponseErrorMessage.decodeMember (m : ResponseErrorMessage) (key : String) (x : JValue) :
    Except UnmarshalError ResponseErrorMessage :=
  if keyMatches "type" key then
    match decodeString m.Type_ x with
    | .ok s => .ok { m with Type_ := s }
    | .error e => .error e
  else if keyMatches "code" key then
    match decodeInt m.Code x with
    | .ok n => .ok { m with Code := n }
    | .error e => .error e
  else .ok m

/-- `json.Unmarshal(data, &r)` for `var r ResponseErrorMessage`. -/
def unmarshalResponseErrorMessage : Raw → Except UnmarshalError ResponseErrorMessage :=
  unmarshalStruct {} ResponseErrorMessage.decodeMember

/-- One object member decoded into a `SubdomainRequest`: the field the key selects is
set, a key that selects no field is skipped. -/
def SubdomainRequest.decodeMember (m : SubdomainRequest) (key : String) (x : JValue) :
    Except UnmarshalError SubdomainRequest :=
  if keyMatches "subdomain" key then
    match decodeString m.Subdomain x with
    | .ok s => .ok { m with Subdomain := s }
    | .error e => .error e
  else .ok m

/-- `json.Unmarshal(b, &payload)` for `var payload SubdomainRequest`. -/
def unmarshalSubdomainRequest : Raw → Except UnmarshalError SubdomainRequest :=
  unmarshalStruct {} SubdomainRequest.decodeMember

/-! ## `net/http` status codes and what a handler writes -/

def StatusOK : Nat := 200
def StatusBadRequest : Nat := 400
def StatusNotFound : Nat := 404
def StatusConflict : Nat := 409
def StatusInternalServerError : Nat := 500
def StatusServiceUnavailable : Nat := 503
def StatusGatewayTimeout : Nat := 504

/-- What a handler writes through the `gin.Context`: `c.String(code, format,
values...)` (the formatting is left unapplied), `c.JSON(code, obj)`,
`c.Status(code)` and `c.AbortWithError(code, err)`; and what a library writes on
the handler's writer with `http.Error(w, http.StatusText(code), code)`. -/
inductive Response where
  | string (code : Nat) (format : String) (values : List String)
  | json (code : Nat) (obj : JValue)
  | status (code : Nat)
  | abortWithError (code : Nat)
  | httpError (code : Nat)

/-- The HTTP status of a written response. -/
def Response.code : Response → Nat
  | .string code _ _ => code
  | .json code _ => code
  | .status code => code
  | .abortWithError code => code
  | .httpError code => code

/-! ## `gorilla/websocket`: the connection as far as the relay writes to it -/

/-- A `*websocket.Conn`: an identity, the JSON messages written so far, and
whether writing on it fails. -/
structure Conn where
  id : Nat := 0
  sent : List JValue := []
  writeFails : Bool := false

/-- The error of a failed write. -/
inductive WriteError where
  | failed
  deriving DecidableEq

/-- `Conn.WriteJSON(v)`, `v` being given in its JSON form. -/
def Conn.WriteJSON (c : Conn) (v : JValue) : Conn × Option WriteError :=
  if c.writeFails then (c, some .failed) else ({ c with sent := c.sent ++ [v] }, none)

/-! ## `server/tunnel.go` -/

def allChars : List Char :=
  "abcdefghijklmnopqrstuvwxyzABCDEFGHIJKLMNOPQRSTUVWXYZ0123456789".data

/-- `generateToken`. -/
def generateToken (length : Nat) (src : Source) : String × Source :=
  let (b, src2) := randomRunes allChars length src
  (String.mk b, src2)

/-- Go `Tunnel`. The mutex is left out (calls are sequential here); each of the two
unbuffered channels is the list of messages handed over on it so far. -/
structure Tunnel where
  subdomain : String
  token : String
  responseChan : List ResponseDataMessage := []
  errorChan : List ResponseErrorMessage := []
  ws : Option Conn := none

/-- `newTunnel`. -/
def newTunnel (subdomain : String) (src : Source) : Tunnel × Source :=
  let (token, src2) := generateToken 64 src
  ({ subdomain := subdomain, token := token, responseChan := [], errorChan := [], ws := none },
    src2)

/-- `Tunnel.sendRawRequest`; `Except.error` is the panic on a nil connection. -/
def Tunnel.sendRawRequest (t : Tunnel) (b : List Byte) :
    Except String (Tunnel × Option WriteError) :=
  match t.ws with
  | none => .error "trying to send data on nil connection"
  | some ws =>
    let (ws2, err) := ws.WriteJSON (RequestMessage.marshal { Data := EncodeToString b })
    .ok ({ t with ws := some ws2 }, err)

/-- The errors `handleRawMessage` returns. -/
inductive HandleError where
  | unmarshal (e : UnmarshalError)
  | unexpectedMessageType (msgType : MessageType)

/-- `Tunnel.handleRawMessage`: the tunnel afterwards and the returned error. -/
def Tunnel.handleRawMessage (t : Tunnel) (data : Raw) : Tunnel × Option HandleError :=
  match unmarshalWSMessage data with
  | .error err => (t, some (.unmarshal err))
  | .ok message =>
    let msgType := message.MessageType
    if msgType = ResponseData then
      match unmarshalResponseDataMessage data with
      | .error err => (t, some (.unmarshal err))
      | .ok r => ({ t with responseChan := t.responseChan ++ [r] }, none)
    else if msgType = ResponseError then
      match unmarshalResponseErrorMessage data with
      | .error err => (t, some (.unmarshal err))
      | .ok r => ({ t with errorChan := t.errorChan ++ [r] }, none)
    else (t, some (.unexpectedMessageType msgType))

/-- `Tunnel.setTunnelConnection`. -/
def Tunnel.setTunnelConnection (t : Tunnel) (conn : Conn) : Tunnel :=
  { t with ws := some conn }

/-! ## `server/proxy.go` -/

/-- `handleError`: what it writes to the external caller, `none` when the `switch`
matches no case and nothing is written. -/
def handleError (e : ResponseErrorMessage) : Option Response :=
  if e.Code = Unavailable then
    some (.string StatusServiceUnavailable "Failed to connect to local service" [])
  else if e.Code = InternalError then
    some (.string StatusInternalServerError
      "An internal error occurred while proxying the request" [])
  else if e.Code = Timeout then
    some (.string StatusGatewayTimeout "The local service took too long to respond" [])
  else none

/-! ## `server/server.go` -/

/-- The server `Config` (its declaration is in a file of the package that is not
among the sources; the fields are those `runServer` sets). -/
structure Config where
  Domain : String
  Bind : String := ""
  Debug : Bool := false

/-- The Go map `map[string]*Tunnel`: its entries, in the order a `range` visits
them. A tunnel is held by pointer, so an update of a tunnel is an update of its
entry. -/
abbrev Tunnels := List (String × Tunnel)

/-- Map read `tunnels[key]`. -/
def Tunnels.get (tunnels : Tunnels) (key : String) : Option Tunnel := tunnels.lookup key

/-- Map write `tunnels[key] = tun`. -/
def Tunnels.set (tunnels : Tunnels) (key : String) (tun : Tunnel) : Tunnels :=
  (key, tun) :: tunnels.filter (fun e => e.1 != key)

/-- Go `LeapServer` (without the mutex and the context). -/
structure LeapServer where
  config : Config
  tunnels : Tunnels := []

/-- How `interceptRequest` disposes of a request: `c.Next()` to the API handlers,
`passExternalRequest(c, tun)`, or `c.Status(http.StatusNotFound)`. -/
inductive Routing where
  | next
  | passExternalRequest (subdomain : String) (tun : Tunnel)
  | notFound

/-- `LeapServer.interceptRequest`, `host` being `c.Request.Host`. -/
def LeapServer.interceptRequest (s : LeapServer) (host : String) : Routing :=
  if host = s.config.Domain then .next
  else if HasSuffix host s.config.Domain then
    let subdomain := firstLabel host
    match s.tunnels.get subdomain with
    | some tun => .passExternalRequest subdomain tun
    | none => .notFound
  else .notFound

/-- The errors of `readSubdomainRequest`. -/
inductive RequestError where
  | readBody
  | unmarshal (e : UnmarshalError)

/-- `readSubdomainRequest`; the body is `none` when `ioutil.ReadAll` fails. -/
def readSubdomainRequest (u : CaseTable) (body : Option Raw) :
    Except RequestError SubdomainRequest :=
  match body with
  | none => .error .readBody
  | some b =>
    match unmarshalSubdomainRequest b with
    | .error err => .error (.unmarshal err)
    | .ok payload => .ok { payload with Subdomain := ToLower u payload.Subdomain }

/-- `LeapServer.isSubdomainAvailable`. -/
def LeapServer.isSubdomainAvailable (s : LeapServer) (u : CaseTable) (sub : String) : Bool :=
  (s.tunnels.get (ToLower u sub)).isNone

/-- `LeapServer.createNewTunnel`. -/
def LeapServer.createNewTunnel (s : LeapServer) (sub : String) (src : Source) :
    LeapServer × Tunnel × Source :=
  let (newTun, src2) := newTunnel sub src
  ({ s with tunnels := s.tunnels.set sub newTun }, newTun, src2)

def hexDigits : List Char := "0123456789abcdef".data

/-- `randomSubdomain`. -/
def randomSubdomain (src : Source) : String × Source :=
  let (b, src2) := randomRunes hexDigits 6 src
  (String.mk b, src2)

/-- The retry loop of `newTunnelRequest`: candidates are drawn until one is
available. `fuel` bounds the number of candidates drawn; `none` means the loop is
still running after that many. -/
def LeapServer.randomAvailable (s : LeapServer) (u : CaseTable) :
    Nat → Source → Option (String × Source)
  | 0, _ => none
  | fuel + 1, src =>
    let (randomSub, src2) := randomSubdomain src
    if s.isSubdomainAvailable u randomSub then some (randomSub, src2)
    else s.randomAvailable u fuel src2

/-- `LeapServer.newTunnelRequest`: the server afterwards, the response written and
the random source afterwards; `none` when the retry loop outlasts `fuel`. -/
def LeapServer.newTunnelRequest (s : LeapServer) (u : CaseTable) (fuel : Nat)
    (body : Option Raw) (src : Source) : Option (LeapServer × Response × Source) :=
  match readSubdomainRequest u body with
  | .error _ => some (s, .abortWithError StatusInternalServerError, src)
  | .ok sr =>
    let chosen : Option (Option (String × Source)) :=
      if sr.Subdomain = "" then
        (s.randomAvailable u fuel src).map some
      else if !s.isSubdomainAvailable u sr.Subdomain then some none
      else some (some (sr.Subdomain, src))
    match chosen with
    | none => none
    | some none =>
      some (s, .string StatusConflict "A tunnel on the subdomain %q already exists"
        [sr.Subdomain], src)
    | some (some (subdomain, src1)) =>
      let (s2, newTun, src2) := s.createNewTunnel subdomain src1
      let token : TokenResponse := { Token := newTun.token, Subdomain := subdomain }
      some (s2, .json StatusOK token.marshal, src2)

/-- What `wsUpgrade.Upgrade(c.Writer, c.Request, nil)` does with the handshake
request when it is called for the first time: it takes over the connection and
returns it, or it fails after having answered itself with
`http.Error(w, http.StatusText(status), status)`. A connection can be taken over
once: a further call of `Upgrade` for the same request fails and its answer
reaches nobody. -/
inductive Upgrade where
  | ok (conn : Conn)
  | failed (status : Nat)

/-- The result of the scan in `connectTunnel`: the entries afterwards, the flag
`found`, whether the handler returned from inside the loop, the response the
caller has been sent by then, and the subdomains for which
`go s.handleTunnelConnection(tun)` was issued. -/
structure ConnectScan where
  tunnels : Tunnels
  found : Bool
  returned : Bool
  written : Option Response
  started : List String

/-- The loop `for _, tun := range s.tunnels` of `connectTunnel`; `hijacked` tells
whether an earlier turn has upgraded the connection. When `Upgrade` fails the
handler calls `c.AbortWithError(500, err)` and returns, but the status of the
response is the one `Upgrade` wrote before, if it could write one. -/
def connectScan (token : String) (upgrade : Upgrade) : Bool → Tunnels → ConnectScan
  | _, [] => { tunnels := [], found := false, returned := false, written := none, started := [] }
  | hijacked, (key, tun) :: rest =>
    if tun.token = token then
      if hijacked then
        { tunnels := (key, tun) :: rest, found := false, returned := true, written := none,
          started := [] }
      else
        match upgrade with
        | .failed status =>
          { tunnels := (key, tun) :: rest, found := false, returned := true,
            written := some (.httpError status), started := [] }
        | .ok conn =>
          let r := connectScan token upgrade true rest
          { tunnels := (key, tun.setTunnelConnection conn) :: r.tunnels, found := true,
            returned := r.returned, written := r.written,
            started := tun.subdomain :: r.started }
    else
      let r := connectScan token upgrade hijacked rest
      { r with tunnels := (key, tun) :: r.tunnels }

/-- `LeapServer.connectTunnel`, `token` being `c.Query("token")`: the server
afterwards, the response the caller is sent (`none` when the connection has been
upgraded) and the receive loops started. -/
def LeapServer.connectTunnel (s : LeapServer) (token : String) (upgrade : Upgrade) :
    LeapServer × Option Response × List String :=
  if token = "" then
    (s, some (.string StatusBadRequest "Missing token query argument" []), [])
  else
    let r := connectScan token upgrade false s.tunnels
    let s2 := { s with tunnels := r.tunnels }
    if r.returned then (s2, r.written, r.started)
    else if !r.found then (s2, some (.string StatusBadRequest "Invalid token" []), r.started)
    else (s2, none, r.started)

/-! ## `client/client.go` -/

/-- An error of an operation on the local connection. -/
inductive IOError where
  | deadlineExceeded
  | other
  deriving DecidableEq

/-- What happens on the local connection once it is open: the error of
`localConn.Write` if any, the bytes `io.Copy` has put into the buffer when it
returns, and the error it returns if any (none at end of file). -/
structure Exchange where
  writeErr : Option IOError
  copied : List Byte
  copyErr : Option IOError

/-- The local service as one forward meets it: whether `dialLocal` succeeds, and
the exchange that follows from the request bytes written to it. -/
structure LocalService where
  dialOk : Bool
  exchange : List Byte → Exchange

/-- The errors `handleRequest` returns. -/
inductive ClientError where
  | decodeData (e : DecodeError)
  | dialLocal
  | ErrTimeout
  | writeLocal
  deriving DecidableEq

/-- The outcome of `handleRequest`: the channel afterwards, the returned error and
whether the local service was dialled. -/
structure Handled where
  ws : Conn
  err : Option ClientError
  dialled : Bool

/-- `LeapClient.handleRequest` on the channel `ws`. The `OnRequest` notification is
left out: it only observes the decoded request. Errors of `WriteJSON` are
discarded, as in the source. -/
def handleRequest (ws : Conn) (data : RequestMessage) (svc : LocalService) : Handled :=
  match DecodeString data.Data with
  | .error err =>
    { ws := (ws.WriteJSON (NewResponseErrorMessage InternalError).marshal).1,
      err := some (.decodeData err), dialled := false }
  | .ok decodedBytes =>
    if !svc.dialOk then
      { ws := (ws.WriteJSON (NewResponseErrorMessage Unavailable).marshal).1,
        err := some .dialLocal, dialled := true }
    else
      let io := svc.exchange decodedBytes
      match io.writeErr with
      | some .deadlineExceeded =>
        { ws := (ws.WriteJSON (NewResponseErrorMessage Timeout).marshal).1,
          err := some .ErrTimeout, dialled := true }
      | some .other =>
        { ws := (ws.WriteJSON (NewResponseErrorMessage InternalError).marshal).1,
          err := some .writeLocal, dialled := true }
      | none =>
        -- _, _ = io.Copy(&buf, localConn): the error of the copy is discarded
        let encodedBytes := EncodeToString io.copied
        { ws := (ws.WriteJSON (NewResponseDataMessage encodedBytes).marshal).1,
          err := none, dialled := true }

/-! ## What a read on the channel returns -/

def CloseNormalClosure : Nat := 1000
def CloseGoingAway : Nat := 1001

/-- The outcome of one read on a `*websocket.Conn`: a message with its bytes, a
`*websocket.CloseError` with its code, or any other error. -/
inductive Inbound where
  | message (data : Raw)
  | closeError (code : Nat)
  | otherError

/-! ## `server/server.go`: the receive loop of a tunnel -/

/-- Map delete `delete(tunnels, key)`. -/
def Tunnels.delete (tunnels : Tunnels) (key : String) : Tunnels :=
  tunnels.filter (fun e => e.1 != key)

/-- Where `handleTunnelConnection` stands after the reads so far: the server, the
tunnel the pointer `tun` refers to, the errors logged with `handle:`, how many
reads returned, whether the answering close frame was written, and whether the
loop was left, in which case the deferred function has closed the channel and
deleted the tunnel from the registry. -/
structure TunnelLoop where
  server : LeapServer
  tun : Tunnel
  logged : List HandleError := []
  reads : Nat := 0
  closeWritten : Bool := false
  returned : Bool := false
  wsClosed : Bool := false

/-- `LeapServer.handleTunnelConnection`, `reads` being what the successive calls of
`tun.ws.ReadMessage()` return. With the reads exhausted the loop is blocked in the
next read (`returned = false`). A message is passed to `handleRawMessage`; its
error is logged and the loop goes on. A read error leaves the loop, and the
deferred function closes the channel and deletes the registry entry. -/
def LeapServer.handleTunnelConnection (s : LeapServer) (tun : Tunnel) :
    List Inbound → TunnelLoop
  | [] => { server := s, tun := tun }
  | .message data :: rest =>
    let (tun2, err) := tun.handleRawMessage data
    let r := s.handleTunnelConnection tun2 rest
    match err with
    | some e => { r with logged := e :: r.logged, reads := r.reads + 1 }
    | none => { r with reads := r.reads + 1 }
  | .closeError code :: _ =>
    { server := { s with tunnels := s.tunnels.delete tun.subdomain }, tun := tun,
      reads := 1,
      closeWritten := code = CloseNormalClosure ∨ code = CloseGoingAway,
      returned := true, wsClosed := true }
  | .otherError :: _ =>
    { server := { s with tunnels := s.tunnels.delete tun.subdomain }, tun := tun,
      reads := 1, closeWritten := false, returned := true, wsClosed := true }

/-! ## `client/client.go`: the session state machine and the relay loop -/

namespace Client

/-- Go `State` (`uint8`, the five constants of the `iota` block in their order). -/
inductive State where
  | GettingToken
  | Connecting
  | Connected
  | Disconnecting
  | Disconnected
  deriving DecidableEq

/-- Go `LeapClient`, as far as the state machine goes: the state, the subdomain,
and the arguments of the `OnStateChange` notifications made so far. -/
structure LeapClient where
  state : State
  subdomain : String
  notified : List State := []

/-- `New`. -/
def New : LeapClient := { state := .Disconnected, subdomain := "?" }

/-- `LeapClient.SetState`. -/
def LeapClient.SetState (c : LeapClient) (state : State) : LeapClient :=
  if c.state ≠ state then { c with state := state, notified := c.notified ++ [state] } else c

/-- What one `c.ws.ReadJSON(&data)` has read before it decodes into `data`: a
message, a `*websocket.CloseError` with its code, or any other error. `ReadJSON`
decodes with `json.NewDecoder(r).Decode(v)`, which takes the first JSON value of
the message and ignores what follows it: `first` is that value, `none` when the
message does not begin with a JSON value (an empty message included). -/
inductive Received where
  | message (first : Option JValue)
  | closeError (code : Nat)
  | otherError

/-- What the goroutine of `startReader` does with the outcome of one
`c.ws.ReadJSON(&data)`: `dataChan <- &data`, `c.closeReadChan <- true`, or
`c.SetState(Disconnected)` followed by `c.quitChan <- true`. -/
inductive ReaderAction where
  | deliver (data : RequestMessage)
  | closeRead
  | quit

/-- One turn of the loop in `startReader`. `ReadJSON` fails on a read error and on
a message whose first JSON value is missing or does not decode into a
`RequestMessage` (the value is decoded by the rules of `Unmarshal`); only a close
error with the normal-closure code takes the first error branch. -/
def readerAction : Received → ReaderAction
  | .message first =>
    match unmarshalRequestMessage first with
    | .ok m => .deliver m
    | .error _ => .quit
  | .closeError code => if code = CloseNormalClosure then .closeRead else .quit
  | .otherError => .quit

/-- Where `Run` stands. -/
inductive Pc where
  | notStarted
  | requestingToken
  | dialling
  | relaying
  | closing
  | returned
  deriving DecidableEq

/-- Where the goroutine of `startReader` stands: not started, in `ReadJSON`,
blocked in one of its three channel sends. -/
inductive Reader where
  | notStarted
  | reading
  | sendingData
  | sendingCloseRead
  | sendingQuit
  deriving DecidableEq

/-- A client session: the client, where `Run` and the reader stand, the channel
`c.ws`, the number of dials of the local service made so far, and the message the
reader is offering on `dataChan` (with the behaviour of the local service should
it be forwarded). -/
structure Session where
  client : LeapClient
  pc : Pc := .notStarted
  reader : Reader := .notStarted
  ws : Conn := {}
  dials : Nat := 0
  pending : Option (RequestMessage × LocalService) := none

/-- The session `New` returns. -/
def Session.start : Session := { client := New }

/-- What happens next in a session: `Run` is called; `requestConnectToken`
returns (`none` for an error); `dialWebsocket` returns; the reader's `ReadJSON`
returns, `svc` being how the local service behaves should the message be
forwarded; the `select` of `Run` takes the message the reader offers on `dataChan`
and calls `handleRequest`; the `select` of `Run` takes `ctx.Done()` and
`disconnectWebsocket` writes the close frame (`writeErr` for an error other than
`ErrCloseSent`); the wait of `disconnectWebsocket` ends; the `select` of `Run`
takes `c.quitChan`. -/
inductive Event where
  | run
  | token (result : Option TokenResponse)
  | dial (ok : Bool)
  | read (frame : Received) (svc : LocalService)
  | receive
  | cancel (writeErr : Bool)
  | waitOver
  | quit

/-- One step of the session, following `Run`, `startReader` and
`disconnectWebsocket`; an event that cannot happen where the session stands
leaves it unchanged. -/
def Session.step (s : Session) : Event → Session
  | .run =>
    if s.pc = .notStarted then
      { s with client := s.client.SetState .GettingToken, pc := .requestingToken }
    else s
  | .token none => if s.pc = .requestingToken then { s with pc := .returned } else s
  | .token (some t) =>
    if s.pc = .requestingToken then
      { s with
        client := LeapClient.SetState { s.client with subdomain := t.Subdomain } .Connecting,
        pc := .dialling }
    else s
  | .dial false => if s.pc = .dialling then { s with pc := .returned } else s
  | .dial true =>
    if s.pc = .dialling then
      { s with client := s.client.SetState .Connected, pc := .relaying, reader := .reading }
    else s
  | .read frame svc =>
    if s.reader = .reading then
      match readerAction frame with
      | .deliver data => { s with reader := .sendingData, pending := some (data, svc) }
      | .closeRead => { s with reader := .sendingCloseRead }
      | .quit => { s with client := s.client.SetState .Disconnected, reader := .sendingQuit }
    else s
  | .receive =>
    if s.pc = .relaying ∧ s.reader = .sendingData then
      match s.pending with
      | some (data, svc) =>
        let h := handleRequest s.ws data svc
        { s with ws := h.ws, dials := if h.dialled then s.dials + 1 else s.dials,
                 reader := .reading, pending := none }
      | none => s
    else s
  | .cancel writeErr =>
    if s.pc = .relaying then
      { s with client := s.client.SetState .Disconnecting,
               pc := if writeErr then .returned else .closing }
    else s
  | .waitOver =>
    if s.pc = .closing then
      { s with client := s.client.SetState .Disconnected, pc := .returned }
    else s
  | .quit =>
    if s.pc = .relaying ∧ s.reader = .sendingQuit then { s with pc := .returned } else s

/-- The session after a sequence of events. -/
def Session.run (s : Session) (events : List Event) : Session := events.foldl Session.step s

/-- The four edges of the chain
`GettingToken → Connecting → Connected → Disconnecting → Disconnected`. -/
def chainEdge : State → State → Bool
  | .GettingToken, .Connecting => true
  | .Connecting, .Connected => true
  | .Connected, .Disconnecting => true
  | .Disconnecting, .Disconnected => true
  | _, _ => false

/-- The state changes the session makes outside the chain: the first `SetState`
of `Run` leaves the initial state `Disconnected`, the reader goes from `Connected`
to `Disconnected` on an abnormal closure, and a cancellation taken after that goes
from `Disconnected` to `Disconnecting`. -/
def sideEdge : State → State → Bool
  | .Disconnected, .GettingToken => true
  | .Connected, .Disconnected => true
  | .Disconnected, .Disconnecting => true
  | _, _ => false

/-- How the state, the place of `Run` and the place of the reader go together in a
session that started from `Session.start`. -/
def Session.consistent (s : Session) : Bool :=
  match s.pc with
  | .notStarted => s.client.state = .Disconnected ∧ s.reader = .notStarted
  | .requestingToken => s.client.state = .GettingToken ∧ s.reader = .notStarted
  | .dialling => s.client.state = .Connecting ∧ s.reader = .notStarted
  | .relaying =>
    (s.client.state = .Connected ∨ s.client.state = .Disconnected) ∧ s.reader ≠ .notStarted
  | .closing =>
    (s.client.state = .Disconnecting ∨ s.client.state = .Disconnected) ∧ s.reader ≠ .notStarted
  | .returned =>
    s.reader = .notStarted ∨ s.client.state = .Connected ∨ s.client.state = .Disconnecting
      ∨ s.client.state = .Disconnected

end Client

/-! ## Proofs: base64 -/

theorem pack3 (a b c : Nat) (hb : b < 256) (hc : c < 256) :
    a <<< 16 ||| b <<< 8 ||| c = a * 65536 + b * 256 + c := by
  have h1 : a <<< 16 ||| b <<< 8 = 2 ^ 8 * (a * 256 + b) := by
    have := Nat.mul_add_lt_is_or (i := 16) (b := b * 256) (by omega) a
    rw [Nat.shiftLeft_eq, Nat.shiftLeft_eq]
    simp only [Nat.reducePow] at this ⊢
    rw [Nat.mul_comm a 65536, ← this]; omega
  rw [h1, ← Nat.mul_add_lt_is_or (by simpa using hc)]
  omega

theorem pack2 (a b : Nat) (hb : b < 256) : a <<< 16 ||| b <<< 8 = a * 65536 + b * 256 := by
  have := pack3 a b 0 hb (by decide)
  simpa using this

theorem pack4 (a b c d : Nat) (hb : b < 64) (hc : c < 64) (hd : d < 64) :
    a <<< 18 ||| b <<< 12 ||| c <<< 6 ||| d = a * 262144 + b * 4096 + c * 64 + d := by
  have h1 : a <<< 18 ||| b <<< 12 = 2 ^ 12 * (a * 64 + b) := by
    have := Nat.mul_add_lt_is_or (i := 18) (b := b * 4096) (by omega) a
    rw [Nat.shiftLeft_eq, Nat.shiftLeft_eq]
    simp only [Nat.reducePow] at this ⊢
    rw [Nat.mul_comm a 262144, ← this]; omega
  have h2 : 2 ^ 12 * (a * 64 + b) ||| c <<< 6 = 2 ^ 6 * (a * 4096 + b * 64 + c) := by
    have := Nat.mul_add_lt_is_or (i := 12) (b := c * 64) (by omega) (a * 64 + b)
    rw [Nat.shiftLeft_eq]
    simp only [Nat.reducePow] at this ⊢
    rw [← this]; omega
  rw [h1, h2, ← Nat.mul_add_lt_is_or (by simpa using hd)]
  omega

theorem mask6 (x : Nat) : x &&& 0x3F = x % 64 := Nat.and_pow_two_sub_one_eq_mod x 6

theorem decodeMap_encodeDigit (v : Nat) (h : v < 64) : decodeMap (encodeDigit v) = v := by
  interval_cases v <;> rfl

theorem decodeMap_masked (x : Nat) : decodeMap (encodeDigit (x &&& 0x3F)) = x % 64 := by
  rw [mask6]; exact decodeMap_encodeDigit _ (Nat.mod_lt _ (by decide))

theorem decodeLoop_digit (dbuf : List Nat) (x : Nat) (rest : List Char) :
    decodeLoop dbuf (encodeDigit (x &&& 0x3F) :: rest) =
      if dbuf.length + 1 = 4 then
        match decodeLoop [] rest with
        | .ok more => .ok (quantumBytes (dbuf ++ [x % 64]) ++ more)
        | .error e => .error e
      else decodeLoop (dbuf ++ [x % 64]) rest := by
  have h : x % 64 ≠ 255 := by omega
  rw [decodeLoop]
  simp only [decodeMap_masked, h, ne_eq, not_false_eq_true, if_true]

theorem decodeLoop_pad (dbuf : List Nat) (rest : List Char) :
    decodeLoop dbuf (padChar :: rest) = decodePadding dbuf rest := by
  rw [decodeLoop]
  have h1 : decodeMap padChar = 0xff := by rfl
  have h2 : isNewline padChar = false := by rfl
  simp [h1, h2]

theorem quantumBytes_full (a b c : Byte) :
    quantumBytes
      [(a.val <<< 16 ||| b.val <<< 8 ||| c.val) >>> 18 % 64,
       (a.val <<< 16 ||| b.val <<< 8 ||| c.val) >>> 12 % 64,
       (a.val <<< 16 ||| b.val <<< 8 ||| c.val) >>> 6 % 64,
       (a.val <<< 16 ||| b.val <<< 8 ||| c.val) % 64] = [a, b, c] := by
  have ha := a.isLt
  have hb := b.isLt
  have hc := c.isLt
  simp only [quantumBytes, List.getD_cons_zero, List.getD_cons_succ, List.length_cons,
    List.length_nil]
  rw [pack3 _ _ _ hb hc, pack4 _ _ _ _ (Nat.mod_lt _ (by decide)) (Nat.mod_lt _ (by decide))
    (Nat.mod_lt _ (by decide))]
  simp only [Nat.shiftRight_eq_div_pow, toByte]
  simp only [List.take, Nat.reducePow, Nat.reduceAdd, Nat.reduceSub]
  congr 1
  · apply Fin.ext; simp only []; omega
  congr 1
  · apply Fin.ext; simp only []; omega
  congr 1
  · apply Fin.ext; simp only []; omega

theorem quantumBytes_two (a b : Byte) :
    quantumBytes
      [(a.val <<< 16 ||| b.val <<< 8) >>> 18 % 64,
       (a.val <<< 16 ||| b.val <<< 8) >>> 12 % 64,
       (a.val <<< 16 ||| b.val <<< 8) >>> 6 % 64] = [a, b] := by
  have ha := a.isLt
  have hb := b.isLt
  simp only [quantumBytes, List.getD_cons_zero, List.getD_cons_succ, List.length_cons,
    List.length_nil, List.getD_nil]
  rw [pack2 _ _ hb, pack4 _ _ _ _ (Nat.mod_lt _ (by decide)) (Nat.mod_lt _ (by decide))
    (by decide)]
  simp only [Nat.shiftRight_eq_div_pow, toByte]
  simp only [List.take, Nat.reducePow, Nat.reduceAdd, Nat.reduceSub]
  congr 1
  · apply Fin.ext; simp only []; omega
  congr 1
  · apply Fin.ext; simp only []; omega

theorem quantumBytes_one (a : Byte) :
    quantumBytes [(a.val <<< 16) >>> 18 % 64, (a.val <<< 16) >>> 12 % 64] = [a] := by
  have ha := a.isLt
  simp only [quantumBytes, List.getD_cons_zero, List.getD_cons_succ, List.length_cons,
    List.length_nil, List.getD_nil]
  rw [pack4 _ _ _ _ (Nat.mod_lt _ (by decide)) (by decide) (by decide)]
  simp only [Nat.shiftRight_eq_div_pow, Nat.shiftLeft_eq, toByte]
  simp only [List.take, Nat.reducePow, Nat.reduceAdd, Nat.reduceSub]
  congr 1
  · apply Fin.ext; simp only []; omega

/-- Decoding inverts encoding on every byte sequence. -/
theorem decodeLoop_encode : ∀ B : List Byte, decodeLoop [] (encode B) = .ok B
  | [] => rfl
  | [a] => by
    simp only [encode, decodeLoop_digit, decodeLoop_pad, List.length_nil, List.length_cons,
      List.nil_append, List.cons_append, Nat.reduceAdd, Nat.reduceEqDiff, if_false]
    simp [decodePadding, isNewline, padChar, quantumBytes_one]
  | [a, b] => by
    simp only [encode, decodeLoop_digit, decodeLoop_pad, List.length_nil, List.length_cons,
      List.nil_append, List.cons_append, Nat.reduceAdd, Nat.reduceEqDiff, if_false]
    simp [decodePadding, quantumBytes_two]
  | a :: b :: c :: rest => by
    have ih := decodeLoop_encode rest
    simp only [encode, decodeLoop_digit, List.length_nil, List.length_cons,
      List.nil_append, List.cons_append, Nat.reduceAdd, Nat.reduceEqDiff, if_false, if_true, ih,
      quantumBytes_full]

theorem DecodeString_EncodeToString (B : List Byte) : DecodeString (EncodeToString B) = .ok B :=
  decodeLoop_encode B

/-! ## Proofs: the JSON form of the messages -/

theorem unmarshalRequestMessage_marshal (m : RequestMessage) :
    unmarshalRequestMessage (some m.marshal) = .ok m := by
  rfl

theorem unmarshalResponseDataMessage_marshal (m : ResponseDataMessage) :
    unmarshalResponseDataMessage (some m.marshal) = .ok m := by
  rfl

theorem unmarshalWSMessage_request (m : RequestMessage) :
    unmarshalWSMessage (some m.marshal) = .ok m.toWSMessage := by
  rfl

/-! ## C1 and C2: the request message and the payload round trip -/

/-- C1, as the code behaves: on every tunnel with a connection that accepts the
write, and for every raw request `B`, `sendRawRequest` writes exactly one message
whose `data` field is the standard base64 encoding of `B` but whose `type` field
is the empty string, so that `MessageType()` of it is `Unknown` and not `Request`;
`NewRequestMessage`, which sets the tag `request`, is not used. -/
theorem sendRawRequest_writes_empty_type (t : Tunnel) (ws : Conn) (B : List Byte) :
    Tunnel.sendRawRequest { t with ws := some { ws with writeFails := false } } B =
        .ok ({ t with ws := some { ws with
                writeFails := false,
                sent := ws.sent ++
                  [JValue.obj [("type", .str ""), ("data", .str (EncodeToString B))]] } }, none)
      ∧ unmarshalWSMessage
          (some (JValue.obj [("type", .str ""), ("data", .str (EncodeToString B))])) =
        .ok { Type_ := "" }
      ∧ WSMessage.MessageType { Type_ := "" } = Unknown
      ∧ Unknown ≠ Request
      ∧ (NewRequestMessage (EncodeToString B)).marshal =
        JValue.obj [("type", .str "request"), ("data", .str (EncodeToString B))] := by
  refine ⟨rfl, rfl, by decide, by decide, rfl⟩

/-- C2: for every byte sequence `B`, base64-decoding the payload field of a message
built by base64-encoding `B` succeeds and yields `B`. Request path: the message
`sendRawRequest` writes, read back as a `RequestMessage`, has a `data` field that
decodes to `B`. Response path: `NewResponseDataMessage` of the encoding of `B`,
sent as JSON and read back as a `ResponseDataMessage`, gives `B` under
`DecodeResponse`. -/
theorem payload_round_trip (B : List Byte) :
    DecodeString (EncodeToString B) = .ok B
      ∧ (∀ (t : Tunnel) (ws : Conn), ∃ t2 msg m,
          Tunnel.sendRawRequest { t with ws := some { ws with writeFails := false } } B =
              .ok (t2, none)
            ∧ (t2.ws.map Conn.sent) = some (ws.sent ++ [msg])
            ∧ unmarshalRequestMessage (some msg) = .ok m
            ∧ DecodeString m.Data = .ok B)
      ∧ (∃ m, unmarshalResponseDataMessage
              (some (NewResponseDataMessage (EncodeToString B)).marshal) = .ok m
            ∧ m.DecodeResponse = .ok B) := by
  refine ⟨DecodeString_EncodeToString B, ?_, ?_⟩
  · intro t ws
    exact ⟨_, _, _, rfl, rfl, unmarshalRequestMessage_marshal _, DecodeString_EncodeToString B⟩
  · exact ⟨_, unmarshalResponseDataMessage_marshal _, DecodeString_EncodeToString B⟩

/-! ## C3 and C4: `handleError` -/

/-- C3, as the code behaves: for a `response_error` message whose `code` is none of
0, 1 and 2, `handleError` matches no case and writes no response at all, so no
status among 500, 503, 504 reaches the caller. -/
theorem handleError_unknown_code_writes_nothing (w : WSMessage) (code : Int)
    (h : code < 0 ∨ 2 < code) :
    handleError { toWSMessage := w, Code := code } = none := by
  have h0 : code ≠ 0 := by omega
  have h1 : code ≠ 1 := by omega
  have h2 : code ≠ 2 := by omega
  simp [handleError, Unavailable, Timeout, InternalError, h0, h1, h2]

/-- The frame with code 3 is accepted by `handleRawMessage`, handed to the error
slot, and `handleError` then writes nothing. -/
theorem handleError_unknown_code_writes_nothing_witness :
    ((3 : Int) < 0 ∨ (2 : Int) < 3)
      ∧ (Tunnel.handleRawMessage { subdomain := "abc", token := "tok" }
          (some (.obj [("type", .str "response_error"), ("code", .int 3)]))).1.errorChan.map
            handleError = [none]
      ∧ handleError { toWSMessage := { Type_ := "response_error" }, Code := 3 } = none :=
  ⟨by decide, by rfl,
    handleError_unknown_code_writes_nothing { Type_ := "response_error" } 3 (by decide)⟩

/-- C4: wire code 0 is `Unavailable` and is answered with 503, wire code 1 is
`Timeout` and is answered with 504, wire code 2 is `InternalError` and is answered
with 500; the three statuses are pairwise different. -/
theorem error_code_mapping (w : WSMessage) :
    (Unavailable = 0 ∧ Timeout = 1 ∧ InternalError = 2)
      ∧ (NewResponseErrorMessage Unavailable).marshal =
          .obj [("type", .str "response_error"), ("code", .int 0)]
      ∧ (NewResponseErrorMessage Timeout).marshal =
          .obj [("type", .str "response_error"), ("code", .int 1)]
      ∧ (NewResponseErrorMessage InternalError).marshal =
          .obj [("type", .str "response_error"), ("code", .int 2)]
      ∧ (handleError { toWSMessage := w, Code := 0 }).map Response.code = some 503
      ∧ (handleError { toWSMessage := w, Code := 1 }).map Response.code = some 504
      ∧ (handleError { toWSMessage := w, Code := 2 }).map Response.code = some 500
      ∧ StatusServiceUnavailable = 503 ∧ StatusGatewayTimeout = 504
      ∧ StatusInternalServerError = 500
      ∧ (503 : Nat) ≠ 504 ∧ (504 : Nat) ≠ 500 ∧ (503 : Nat) ≠ 500 := by
  refine ⟨⟨rfl, rfl, rfl⟩, rfl, rfl, rfl, rfl, rfl, rfl, rfl, rfl, rfl,
    by decide, by decide, by decide⟩

/-! ## C5: routing in `handleRawMessage` -/

theorem decodeMembers_responseData_tag (members : List (String × JValue)) :
    ∀ (m r : ResponseDataMessage),
      decodeMembers ResponseDataMessage.decodeMember m members = .ok r →
      decodeMembers WSMessage.decodeMember m.toWSMessage members = .ok r.toWSMessage := by
  induction members with
  | nil =>
    intro m r h
    simp only [decodeMembers, Except.ok.injEq] at h ⊢
    rw [h]
  | cons kv rest ih =>
    intro m r h
    obtain ⟨key, x⟩ := kv
    simp only [decodeMembers, ResponseDataMessage.decodeMember, WSMessage.decodeMember] at h ⊢
    cases hk : keyMatches "type" key with
    | true =>
      simp only [hk, if_true] at h ⊢
      cases hd : decodeString m.Type_ x with
      | error e => simp [hd] at h
      | ok s =>
        simp only [hd] at h ⊢
        exact ih _ r h
    | false =>
      simp only [hk, Bool.false_eq_true, if_false] at h ⊢
      cases hr : keyMatches "response" key with
      | true =>
        simp only [hr, if_true] at h
        cases hd : decodeString m.Response x with
        | error e => simp [hd] at h
        | ok s =>
          simp only [hd] at h
          exact ih { toWSMessage := m.toWSMessage, Response := s } r h
      | false =>
        simp only [hr, Bool.false_eq_true, if_false] at h
        exact ih _ r h

theorem decodeMembers_responseError_tag (members : List (String × JValue)) :
    ∀ (m r : ResponseErrorMessage),
      decodeMembers ResponseErrorMessage.decodeMember m members = .ok r →
      decodeMembers WSMessage.decodeMember m.toWSMessage members = .ok r.toWSMessage := by
  induction members with
  | nil =>
    intro m r h
    simp only [decodeMembers, Except.ok.injEq] at h ⊢
    rw [h]
  | cons kv rest ih =>
    intro m r h
    obtain ⟨key, x⟩ := kv
    simp only [decodeMembers, ResponseErrorMessage.decodeMember, WSMessage.decodeMember] at h ⊢
    cases hk : keyMatches "type" key with
    | true =>
      simp only [hk, if_true] at h ⊢
      cases hd : decodeString m.Type_ x with
      | error e => simp [hd] at h
      | ok s =>
        simp only [hd] at h ⊢
        exact ih _ r h
    | false =>
      simp only [hk, Bool.false_eq_true, if_false] at h ⊢
      cases hr : keyMatches "code" key with
      | true =>
        simp only [hr, if_true] at h
        cases hd : decodeInt m.Code x with
        | error e => simp [hd] at h
        | ok s =>
          simp only [hd] at h
          exact ih { toWSMessage := m.toWSMessage, Code := s } r h
      | false =>
        simp only [hr, Bool.false_eq_true, if_false] at h
        exact ih _ r h

/-- A frame that decodes as a `ResponseDataMessage` decodes as a `WSMessage` with
the same type tag. -/
theorem unmarshalWSMessage_of_responseData (data : Raw) (r : ResponseDataMessage)
    (h : unmarshalResponseDataMessage data = .ok r) :
    unmarshalWSMessage data = .ok r.toWSMessage := by
  unfold unmarshalResponseDataMessage at h
  unfold unmarshalWSMessage
  match data, h with
  | some .null, h =>
    simp only [unmarshalStruct, Except.ok.injEq] at h ⊢
    rw [← h]
  | some (.obj members), h =>
    simp only [unmarshalStruct] at h ⊢
    exact decodeMembers_responseData_tag members _ r h

/-- A frame that decodes as a `ResponseErrorMessage` decodes as a `WSMessage` with
the same type tag. -/
theorem unmarshalWSMessage_of_responseError (data : Raw) (r : ResponseErrorMessage)
    (h : unmarshalResponseErrorMessage data = .ok r) :
    unmarshalWSMessage data = .ok r.toWSMessage := by
  unfold unmarshalResponseErrorMessage at h
  unfold unmarshalWSMessage
  match data, h with
  | some .null, h =>
    simp only [unmarshalStruct, Except.ok.injEq] at h ⊢
    rw [← h]
  | some (.obj members), h =>
    simp only [unmarshalStruct] at h ⊢
    exact decodeMembers_responseError_tag members _ r h

/-- C5: `handleRawMessage` routes by the type tag. A frame that decodes as a
`response_data` message is appended to the response slot and nothing else changes;
a frame that decodes as a `response_error` message is appended to the error slot
and nothing else changes; both return no error. For every other frame (no valid
JSON, no decodable tag, or a tag that is neither of the two, such as `request`,
the empty string, a missing tag or an unrecognized string) an error is returned
and the tunnel, with both slots, is unchanged. -/
theorem handleRawMessage_routes_by_tag (t : Tunnel) (data : Raw) :
    (∀ r : ResponseDataMessage, unmarshalResponseDataMessage data = .ok r →
        r.Type_ = "response_data" →
        t.handleRawMessage data = ({ t with responseChan := t.responseChan ++ [r] }, none))
      ∧ (∀ r : ResponseErrorMessage, unmarshalResponseErrorMessage data = .ok r →
        r.Type_ = "response_error" →
        t.handleRawMessage data = ({ t with errorChan := t.errorChan ++ [r] }, none))
      ∧ ((∀ m : WSMessage, unmarshalWSMessage data = .ok m →
          m.Type_ ≠ "response_data" ∧ m.Type_ ≠ "response_error") →
        ∃ e, t.handleRawMessage data = (t, some e)) := by
  refine ⟨?_, ?_, ?_⟩
  · intro r hr htag
    have hw := unmarshalWSMessage_of_responseData data r hr
    simp [Tunnel.handleRawMessage, hw, hr, WSMessage.MessageType, htag, ResponseData, Request]
  · intro r hr htag
    have hw := unmarshalWSMessage_of_responseError data r hr
    simp [Tunnel.handleRawMessage, hw, hr, WSMessage.MessageType, htag, ResponseData, Request,
      ResponseError]
  · intro h
    cases hw : unmarshalWSMessage data with
    | error e => exact ⟨.unmarshal e, by simp [Tunnel.handleRawMessage, hw]⟩
    | ok m =>
      obtain ⟨h1, h2⟩ := h m hw
      by_cases hreq : m.Type_ = "request"
      · exact ⟨.unexpectedMessageType Request, by
          simp [Tunnel.handleRawMessage, hw, WSMessage.MessageType, hreq, ResponseData, Request,
            ResponseError]⟩
      · exact ⟨.unexpectedMessageType Unknown, by
          simp [Tunnel.handleRawMessage, hw, WSMessage.MessageType, hreq, h1, h2, ResponseData,
            Unknown, ResponseError]⟩

/-- The three routes at concrete frames: a `response_data` frame, a
`response_error` frame, and frames tagged `request`, untagged, and not JSON. -/
theorem handleRawMessage_routes_by_tag_witness :
    (Tunnel.handleRawMessage { subdomain := "abc", token := "tok" }
        (some (NewResponseDataMessage "aGk=").marshal) =
      ({ subdomain := "abc", token := "tok",
         responseChan := [NewResponseDataMessage "aGk="] }, none))
      ∧ (Tunnel.handleRawMessage { subdomain := "abc", token := "tok" }
        (some (NewResponseErrorMessage Timeout).marshal) =
      ({ subdomain := "abc", token := "tok",
         errorChan := [NewResponseErrorMessage Timeout] }, none))
      ∧ (∃ e, Tunnel.handleRawMessage { subdomain := "abc", token := "tok" }
        (some (NewRequestMessage "aGk=").marshal) = ({ subdomain := "abc", token := "tok" }, some e))
      ∧ (∃ e, Tunnel.handleRawMessage { subdomain := "abc", token := "tok" }
        (some (.obj [])) = ({ subdomain := "abc", token := "tok" }, some e))
      ∧ (∃ e, Tunnel.handleRawMessage { subdomain := "abc", token := "tok" }
        none = ({ subdomain := "abc", token := "tok" }, some e)) := by
  refine ⟨?_, ?_, ?_, ?_, ?_⟩
  · exact (handleRawMessage_routes_by_tag _ _).1 _ rfl rfl
  · exact (handleRawMessage_routes_by_tag _ _).2.1 _ rfl rfl
  · refine (handleRawMessage_routes_by_tag _ _).2.2 ?_
    intro m hm
    have : m = { Type_ := "request" } := by
      have h2 : unmarshalWSMessage (some (NewRequestMessage "aGk=").marshal)
          = .ok { Type_ := "request" } := rfl
      rw [h2] at hm; exact (Except.ok.inj hm).symm
    subst this
    exact ⟨by decide, by decide⟩
  · refine (handleRawMessage_routes_by_tag _ _).2.2 ?_
    intro m hm
    have : m = { Type_ := "" } := by
      have h2 : unmarshalWSMessage (some (.obj [])) = .ok { Type_ := "" } := rfl
      rw [h2] at hm; exact (Except.ok.inj hm).symm
    subst this
    exact ⟨by decide, by decide⟩
  · refine (handleRawMessage_routes_by_tag _ _).2.2 ?_
    intro m hm
    exact absurd hm (by simp [unmarshalWSMessage, unmarshalStruct])

/-! ## Proofs: `strings.ToLower` and the registry map -/

theorem ToLower_idem (u : CaseTable) (s : String) : ToLower u (ToLower u s) = ToLower u s := by
  have h : u.toLower ∘ u.toLower = u.toLower := funext u.idem
  simp [ToLower, h]

theorem ToLower_ne_empty (u : CaseTable) (s : String) (h : s ≠ "") : ToLower u s ≠ "" := by
  intro h2
  apply h
  have h3 : (ToLower u s).data = [] := by rw [h2]
  simp only [ToLower, List.map_eq_nil_iff] at h3
  exact String.ext h3

theorem ToLower_empty (u : CaseTable) : ToLower u "" = "" := rfl

theorem Tunnels.get_set_self (tunnels : Tunnels) (key : String) (tun : Tunnel) :
    (tunnels.set key tun).get key = some tun := by
  simp [Tunnels.get, Tunnels.set, List.lookup]

theorem Tunnels.get_filter_ne (tunnels : Tunnels) (key other : String) (h : other ≠ key) :
    List.lookup other (tunnels.filter (fun e => e.1 != key)) = List.lookup other tunnels := by
  induction tunnels with
  | nil => rfl
  | cons e rest ih =>
    obtain ⟨k, v⟩ := e
    by_cases hk : k = key
    · subst hk
      have : (other == k) = false := by simpa using h
      simp [List.filter, List.lookup, this, ih]
    · have hk2 : (k != key) = true := by simpa using hk
      simp only [List.filter, hk2, List.lookup]
      cases other == k <;> simp [ih]

theorem Tunnels.get_set_ne (tunnels : Tunnels) (key other : String) (tun : Tunnel)
    (h : other ≠ key) : (tunnels.set key tun).get other = tunnels.get other := by
  have : (other == key) = false := by simpa using h
  simp only [Tunnels.get, Tunnels.set, List.lookup, this]
  exact Tunnels.get_filter_ne tunnels key other h

/-! ## C6: a second create of the same subdomain conflicts -/

/-- A create with a non-empty requested subdomain on a server where it is taken:
409, nothing changes. -/
theorem newTunnelRequest_taken (s : LeapServer) (u : CaseTable) (fuel : Nat) (b : Raw)
    (sub : String) (src : Source)
    (hb : unmarshalSubdomainRequest b = .ok { Subdomain := sub })
    (hne : ToLower u sub ≠ "") (htaken : s.isSubdomainAvailable u (ToLower u sub) = false) :
    s.newTunnelRequest u fuel (some b) src =
      some (s, .string StatusConflict "A tunnel on the subdomain %q already exists"
        [ToLower u sub], src) := by
  simp [LeapServer.newTunnelRequest, readSubdomainRequest, hb, hne, htaken]

/-- A create with a non-empty requested subdomain on a server where it is free:
the new pending tunnel is stored under the lower-cased name. -/
theorem newTunnelRequest_free (s : LeapServer) (u : CaseTable) (fuel : Nat) (b : Raw)
    (sub : String) (src : Source)
    (hb : unmarshalSubdomainRequest b = .ok { Subdomain := sub })
    (hne : ToLower u sub ≠ "") (hfree : s.isSubdomainAvailable u (ToLower u sub) = true) :
    s.newTunnelRequest u fuel (some b) src =
      some ({ s with tunnels := s.tunnels.set (ToLower u sub) (newTunnel (ToLower u sub) src).1 },
        .json StatusOK (TokenResponse.marshal
          { Subdomain := ToLower u sub, Token := (newTunnel (ToLower u sub) src).1.token }),
        (newTunnel (ToLower u sub) src).2) := by
  simp [LeapServer.newTunnelRequest, readSubdomainRequest, hb, hne, hfree,
    LeapServer.createNewTunnel]

/-- C6: for every registry state and every non-empty requested subdomain, a create
followed immediately by a second create of the same subdomain in any letter case
(both bodies decode, the two names are equal once lower-cased by
`strings.ToLower`) returns, and the second answers 409 and leaves the registry as
the first call left it. The first call is decided by the registry before it: when
the lower-cased name is a key, it answers 409 and changes nothing; when it is not,
it answers 200 with the lower-cased name and the token of a new pending tunnel,
which it stores under the lower-cased name, every other key staying as it was; the
second call leaves that tunnel and its token in place. -/
theorem second_create_conflicts (s : LeapServer) (u : CaseTable) (fuel1 fuel2 : Nat)
    (b1 b2 : Raw) (sub1 sub2 : String) (src1 src2 : Source)
    (hb1 : unmarshalSubdomainRequest b1 = .ok { Subdomain := sub1 })
    (hb2 : unmarshalSubdomainRequest b2 = .ok { Subdomain := sub2 })
    (hne : sub1 ≠ "") (hsame : ToLower u sub2 = ToLower u sub1) :
    ∃ s1 resp1 srcA,
      s.newTunnelRequest u fuel1 (some b1) src1 = some (s1, resp1, srcA)
        ∧ s1.newTunnelRequest u fuel2 (some b2) src2 =
            some (s1, .string StatusConflict "A tunnel on the subdomain %q already exists"
              [ToLower u sub1], src2)
        ∧ ((s.tunnels.get (ToLower u sub1)).isSome = true →
            resp1 = .string StatusConflict "A tunnel on the subdomain %q already exists"
                [ToLower u sub1]
              ∧ s1.tunnels = s.tunnels ∧ s1.config = s.config)
        ∧ (s.tunnels.get (ToLower u sub1) = none →
            resp1 = .json StatusOK (TokenResponse.marshal
                { Subdomain := ToLower u sub1, Token := (generateToken 64 src1).1 })
              ∧ s1.tunnels.get (ToLower u sub1) =
                  some { subdomain := ToLower u sub1, token := (generateToken 64 src1).1,
                         responseChan := [], errorChan := [], ws := none }
              ∧ (∀ other, other ≠ ToLower u sub1 → s1.tunnels.get other = s.tunnels.get other)
              ∧ s1.config = s.config) := by
  have hne1 : ToLower u sub1 ≠ "" := ToLower_ne_empty u sub1 hne
  have hne2 : ToLower u sub2 ≠ "" := by rw [hsame]; exact hne1
  cases hav : s.isSubdomainAvailable u (ToLower u sub1) with
  | false =>
    have hkey : (s.tunnels.get (ToLower u sub1)).isSome = true := by
      simpa [LeapServer.isSubdomainAvailable, ToLower_idem] using hav
    refine ⟨s, _, src1, newTunnelRequest_taken s u fuel1 b1 sub1 src1 hb1 hne1 hav, ?_, ?_, ?_⟩
    · have := newTunnelRequest_taken s u fuel2 b2 sub2 src2 hb2 hne2 (by rw [hsame]; exact hav)
      rw [hsame] at this
      exact this
    · intro _
      exact ⟨rfl, rfl, rfl⟩
    · intro hnone
      rw [hnone] at hkey
      exact absurd hkey (by simp)
  | true =>
    have hkey : s.tunnels.get (ToLower u sub1) = none := by
      simpa [LeapServer.isSubdomainAvailable, ToLower_idem] using hav
    refine ⟨_, _, _, newTunnelRequest_free s u fuel1 b1 sub1 src1 hb1 hne1 hav, ?_, ?_, ?_⟩
    · have htaken : LeapServer.isSubdomainAvailable
          { s with tunnels :=
              s.tunnels.set (ToLower u sub1) (newTunnel (ToLower u sub1) src1).1 }
          u (ToLower u sub2) = false := by
        simp [LeapServer.isSubdomainAvailable, hsame, ToLower_idem, Tunnels.get_set_self]
      have := newTunnelRequest_taken _ u fuel2 b2 sub2 src2 hb2 hne2 htaken
      rw [hsame] at this
      exact this
    · intro hsome
      rw [hkey] at hsome
      exact absurd hsome (by simp)
    · intro _
      refine ⟨rfl, Tunnels.get_set_self _ _ _, ?_, rfl⟩
      intro other hother
      exact Tunnels.get_set_ne _ _ _ _ hother

/-- The request `ÉCOLE` on an empty registry, then `école`: the first answers 200
and stores a pending tunnel under `école`, the second answers 409. -/
theorem second_create_conflicts_witness :
    ∃ s1 resp1 srcA,
      LeapServer.newTunnelRequest { config := { Domain := "example.com" } } latin1 0
          (some (some (SubdomainRequest.marshal { Subdomain := "ÉCOLE" }))) (fun i => i) =
          some (s1, resp1, srcA)
        ∧ s1.newTunnelRequest latin1 0
            (some (some (SubdomainRequest.marshal { Subdomain := "école" }))) (fun i => 7 * i) =
            some (s1, .string StatusConflict "A tunnel on the subdomain %q already exists"
              ["école"], fun i => 7 * i)
        ∧ resp1 = .json StatusOK (TokenResponse.marshal
            { Subdomain := "école", Token := (generateToken 64 (fun i => i)).1 })
        ∧ s1.tunnels.get "école" =
            some { subdomain := "école", token := (generateToken 64 (fun i => i)).1,
                   responseChan := [], errorChan := [], ws := none } := by
  obtain ⟨s1, resp1, srcA, h1, h2, -, h4⟩ :=
    second_create_conflicts { config := { Domain := "example.com" } } latin1 0 0
      (some (SubdomainRequest.marshal { Subdomain := "ÉCOLE" }))
      (some (SubdomainRequest.marshal { Subdomain := "école" })) "ÉCOLE" "école" (fun i => i)
      (fun i => 7 * i) rfl rfl (by decide) (by decide)
  have hl : ToLower latin1 "ÉCOLE" = "école" := by decide
  rw [hl] at h2 h4
  exact ⟨s1, resp1, srcA, h1, h2, (h4 rfl).1, (h4 rfl).2.1⟩

/-! ## C7: a create with an empty requested subdomain -/

theorem randomRunes_length (alphabet : List Char) :
    ∀ (length : Nat) (src : Source), (randomRunes alphabet length src).1.length = length := by
  intro length
  induction length with
  | zero => intro src; rfl
  | succ n ih =>
    intro src
    simp only [randomRunes, List.length_cons, ih]

theorem randomRunes_mem (alphabet : List Char) (hpos : 0 < alphabet.length) :
    ∀ (length : Nat) (src : Source), ∀ c ∈ (randomRunes alphabet length src).1, c ∈ alphabet := by
  intro length
  induction length with
  | zero => intro src c hc; simp [randomRunes] at hc
  | succ n ih =>
    intro src c hc
    simp only [randomRunes, List.mem_cons] at hc
    rcases hc with hc | hc
    · have hlt : (Intn src alphabet.length).1 < alphabet.length := Nat.mod_lt _ hpos
      rw [hc, List.getD_eq_getElem _ _ hlt]
      exact List.getElem_mem _
    · exact ih _ c hc

theorem ToLower_hex (u : CaseTable) (b : List Char) (h : ∀ c ∈ b, c ∈ hexDigits) :
    ToLower u (String.mk b) = String.mk b := by
  have hfix : ∀ c ∈ hexDigits, c.toNat < 128 ∧ c.toLower = c := by decide
  have : b.map u.toLower = b := by
    conv_rhs => rw [← List.map_id b]
    exact List.map_congr_left (fun c hc => by
      rw [u.ascii c (hfix c (h c hc)).1]; exact (hfix c (h c hc)).2)
  simp [ToLower, this]

theorem randomSubdomain_hex (u : CaseTable) (src : Source) :
    (randomSubdomain src).1.length = 6
      ∧ (∀ c ∈ (randomSubdomain src).1.data, c ∈ hexDigits)
      ∧ ToLower u (randomSubdomain src).1 = (randomSubdomain src).1 := by
  have hm := randomRunes_mem hexDigits (by decide) 6 src
  refine ⟨?_, hm, ToLower_hex u _ hm⟩
  simp [randomSubdomain, String.length, randomRunes_length]

theorem generateToken_alnum (length : Nat) (src : Source) :
    (generateToken length src).1.length = length
      ∧ ∀ c ∈ (generateToken length src).1.data, c ∈ allChars := by
  refine ⟨?_, randomRunes_mem allChars (by decide) length src⟩
  simp [generateToken, String.length, randomRunes_length]

/-- What the retry loop returns is a candidate drawn by `randomSubdomain` that is
available. -/
theorem randomAvailable_spec (s : LeapServer) (u : CaseTable) :
    ∀ (fuel : Nat) (src : Source) (sub : String) (src2 : Source),
      s.randomAvailable u fuel src = some (sub, src2) →
      (∃ src0, sub = (randomSubdomain src0).1) ∧ s.isSubdomainAvailable u sub = true := by
  intro fuel
  induction fuel with
  | zero => intro src sub src2 h; simp [LeapServer.randomAvailable] at h
  | succ n ih =>
    intro src sub src2 h
    simp only [LeapServer.randomAvailable] at h
    cases hav : s.isSubdomainAvailable u (randomSubdomain src).1 with
    | true =>
      simp only [hav, if_true, Option.some.injEq, Prod.mk.injEq] at h
      exact ⟨⟨src, h.1.symm⟩, by rw [← h.1]; exact hav⟩
    | false =>
      simp only [hav, Bool.false_eq_true, if_false] at h
      exact ih _ sub src2 h

/-- The retry loop returns as soon as a candidate is available: with the first
candidate free, one unit of fuel is enough. -/
theorem randomAvailable_first (s : LeapServer) (u : CaseTable) (fuel : Nat) (src : Source)
    (h : s.isSubdomainAvailable u (randomSubdomain src).1 = true) :
    s.randomAvailable u (fuel + 1) src = some (randomSubdomain src) := by
  simp [LeapServer.randomAvailable, h]

/-- C7: for every registry state and every random source, a create with an empty
requested subdomain that returns answers 200 with a subdomain of exactly 6
characters from `0-9a-f` that was not a key of the registry, and a token of
exactly 64 characters from `a-z`, `A-Z`, `0-9`; afterwards the registry maps the
subdomain to the new pending tunnel (no connection, that subdomain and token) and
every other key is mapped as before. -/
theorem random_create_result (s s2 : LeapServer) (u : CaseTable) (fuel : Nat) (b : Raw)
    (src src2 : Source) (resp : Response)
    (hb : unmarshalSubdomainRequest b = .ok { Subdomain := "" })
    (hret : s.newTunnelRequest u fuel (some b) src = some (s2, resp, src2)) :
    ∃ subdomain token,
      resp = .json StatusOK (TokenResponse.marshal { Subdomain := subdomain, Token := token })
        ∧ subdomain.length = 6 ∧ (∀ c ∈ subdomain.data, c ∈ hexDigits)
        ∧ s.tunnels.get subdomain = none
        ∧ token.length = 64 ∧ (∀ c ∈ token.data, c ∈ allChars)
        ∧ s2.tunnels.get subdomain =
            some { subdomain := subdomain, token := token, responseChan := [], errorChan := [],
                   ws := none }
        ∧ (∀ other, other ≠ subdomain → s2.tunnels.get other = s.tunnels.get other)
        ∧ s2.config = s.config := by
  have hl : ToLower u "" = "" := ToLower_empty u
  simp only [LeapServer.newTunnelRequest, readSubdomainRequest, hb, hl, if_true] at hret
  cases hra : s.randomAvailable u fuel src with
  | none => simp [hra] at hret
  | some r =>
    obtain ⟨sub, srcA⟩ := r
    obtain ⟨⟨src0, hsub⟩, hav⟩ := randomAvailable_spec s u fuel src sub srcA hra
    obtain ⟨hlen, hhex, hlow⟩ := randomSubdomain_hex u src0
    rw [← hsub] at hlen hhex hlow
    obtain ⟨htl, htm⟩ := generateToken_alnum 64 srcA
    simp only [hra, Option.map_some', LeapServer.createNewTunnel, newTunnel, Option.some.injEq,
      Prod.mk.injEq] at hret
    obtain ⟨hs2, hresp, -⟩ := hret
    refine ⟨sub, (generateToken 64 srcA).1, hresp.symm, hlen, hhex, ?_, htl, htm, ?_, ?_, ?_⟩
    · simpa [LeapServer.isSubdomainAvailable, hlow] using hav
    · rw [← hs2]; exact Tunnels.get_set_self _ _ _
    · intro other hne
      rw [← hs2]; exact Tunnels.get_set_ne _ _ _ _ hne
    · rw [← hs2]

/-- On a registry that already holds `012345`, with the source 0, 1, 2, ... the
first candidate `012345` is rejected and the create returns with the second. -/
theorem random_create_result_witness :
    ∃ s2 resp src2,
      LeapServer.newTunnelRequest
          { config := { Domain := "example.com" },
            tunnels := [("012345", { subdomain := "012345", token := "tok" })] }
          latin1 2 (some (SubdomainRequest.marshal { Subdomain := "" })) (fun i => i) =
          some (s2, resp, src2)
        ∧ ∃ subdomain token,
          resp = .json StatusOK (TokenResponse.marshal { Subdomain := subdomain, Token := token })
            ∧ subdomain.length = 6 ∧ (∀ c ∈ subdomain.data, c ∈ hexDigits)
            ∧ Tunnels.get [("012345", { subdomain := "012345", token := "tok" })] subdomain = none
            ∧ token.length = 64 ∧ (∀ c ∈ token.data, c ∈ allChars)
            ∧ s2.tunnels.get subdomain =
                some { subdomain := subdomain, token := token, responseChan := [],
                       errorChan := [], ws := none }
            ∧ (∀ other, other ≠ subdomain → s2.tunnels.get other =
                Tunnels.get [("012345", { subdomain := "012345", token := "tok" })] other)
            ∧ s2.config = { Domain := "example.com" } :=
  ⟨_, _, _, rfl,
    random_create_result
      { config := { Domain := "example.com" },
        tunnels := [("012345", { subdomain := "012345", token := "tok" })] }
      _ latin1 2 (some (SubdomainRequest.marshal { Subdomain := "" })) (fun i => i) _ _ rfl rfl⟩

/-! ## C8: the connect handshake -/

theorem connectScan_no_match (token : String) (upgrade : Upgrade) (hijacked : Bool)
    (tunnels : Tunnels) (h : ∀ e ∈ tunnels, e.2.token ≠ token) :
    connectScan token upgrade hijacked tunnels =
      { tunnels := tunnels, found := false, returned := false, written := none,
        started := [] } := by
  induction tunnels with
  | nil => rfl
  | cons e rest ih =>
    obtain ⟨key, tun⟩ := e
    have h1 : tun.token ≠ token := h (key, tun) (List.mem_cons_self _ _)
    have h2 := ih (fun e he => h e (List.mem_cons_of_mem _ he))
    simp [connectScan, h1, h2]

/-- Once the connection is upgraded the scan changes nothing more: a further
tunnel with the token makes the handler return, its second `Upgrade` failing. -/
theorem connectScan_hijacked (token : String) (upgrade : Upgrade) (tunnels : Tunnels) :
    (connectScan token upgrade true tunnels).tunnels = tunnels
      ∧ (connectScan token upgrade true tunnels).written = none
      ∧ (connectScan token upgrade true tunnels).started = [] := by
  induction tunnels with
  | nil => exact ⟨rfl, rfl, rfl⟩
  | cons e rest ih =>
    obtain ⟨key, tun⟩ := e
    by_cases ht : tun.token = token
    · simp [connectScan, ht]
    · obtain ⟨h1, h2, h3⟩ := ih
      simp [connectScan, ht, h1, h2, h3]

/-- The scan up to and including the first tunnel with the token, the upgrade
succeeding. -/
theorem connectScan_first_match (token : String) (conn : Conn) (pre post : Tunnels)
    (key : String) (tun : Tunnel) (hpre : ∀ e ∈ pre, e.2.token ≠ token)
    (htun : tun.token = token) :
    (connectScan token (.ok conn) false (pre ++ (key, tun) :: post)).tunnels =
        pre ++ (key, { tun with ws := some conn }) :: post
      ∧ (connectScan token (.ok conn) false (pre ++ (key, tun) :: post)).found = true
      ∧ (connectScan token (.ok conn) false (pre ++ (key, tun) :: post)).written = none
      ∧ (connectScan token (.ok conn) false (pre ++ (key, tun) :: post)).started =
        [tun.subdomain] := by
  induction pre with
  | nil =>
    obtain ⟨h1, h2, h3⟩ := connectScan_hijacked token (.ok conn) post
    simp [connectScan, htun, h1, h2, h3, Tunnel.setTunnelConnection]
  | cons e rest ih =>
    obtain ⟨k, t⟩ := e
    have h1 : t.token ≠ token := hpre (k, t) (List.mem_cons_self _ _)
    obtain ⟨i1, i2, i3, i4⟩ := ih (fun e he => hpre e (List.mem_cons_of_mem _ he))
    simp [connectScan, h1, i1, i2, i3, i4]

/-- A list with an entry that has the token splits at the first such entry. -/
theorem first_with_token (token : String) (tunnels : Tunnels)
    (h : ∃ e ∈ tunnels, e.2.token = token) :
    ∃ pre key tun post, tunnels = pre ++ (key, tun) :: post
      ∧ (∀ e ∈ pre, e.2.token ≠ token) ∧ tun.token = token := by
  induction tunnels with
  | nil => obtain ⟨e, he, -⟩ := h; simp at he
  | cons e rest ih =>
    obtain ⟨k, t⟩ := e
    by_cases ht : t.token = token
    · exact ⟨[], k, t, rest, rfl, by simp, ht⟩
    · obtain ⟨e2, he2, hm⟩ := h
      rcases List.mem_cons.mp he2 with rfl | he2
      · exact absurd hm ht
      · obtain ⟨pre, key, tun, post, h1, h2, h3⟩ := ih ⟨e2, he2, hm⟩
        refine ⟨(k, t) :: pre, key, tun, post, by rw [h1]; rfl, ?_, h3⟩
        intro e he
        rcases List.mem_cons.mp he with rfl | he
        · exact ht
        · exact h2 e he

/-- C8, against the claim as stated: the token `tok` belongs only to a tunnel that
is already connected (to the connection 1), yet `connectTunnel` with that token
replaces the connection by the newly upgraded one (2), starts a receive loop and
answers no 400. -/
theorem connectTunnel_reattaches_connected :
    LeapServer.connectTunnel
        { config := { Domain := "example.com" },
          tunnels := [("abc", { subdomain := "abc", token := "tok", ws := some { id := 1 } })] }
        "tok" (.ok { id := 2 }) =
      ({ config := { Domain := "example.com" },
         tunnels := [("abc", { subdomain := "abc", token := "tok", ws := some { id := 2 } })] },
       none, ["abc"]) := by
  rfl

/-- C8, amended: for every registry state and every token string, with a handshake
request that can be upgraded, `connectTunnel` attaches a channel iff the token is
non-empty and equals the token of a tunnel of the registry, whether that tunnel is
still pending or already connected. When the token is empty or no tunnel has it
(whatever the upgrade would do), no tunnel is changed, no receive loop is started
and the answer is 400. When the token is non-empty and some tunnel has it, the
upgraded channel is attached to the first such tunnel the scan meets, its receive
loop is started, no other tunnel is changed and no 400 is answered. -/
theorem connectTunnel_attaches_by_token (s : LeapServer) (token : String) (upgrade : Upgrade) :
    ((token = "" ∨ ∀ e ∈ s.tunnels, e.2.token ≠ token) →
        ∃ msg, s.connectTunnel token upgrade =
          (s, some (.string StatusBadRequest msg []), []))
      ∧ (∀ conn, upgrade = .ok conn → token ≠ "" → (∃ e ∈ s.tunnels, e.2.token = token) →
          ∃ pre key tun post,
            s.tunnels = pre ++ (key, tun) :: post
              ∧ (∀ e ∈ pre, e.2.token ≠ token)
              ∧ tun.token = token
              ∧ s.connectTunnel token upgrade =
                  ({ s with tunnels := pre ++ (key, { tun with ws := some conn }) :: post },
                    none, [tun.subdomain])) := by
  constructor
  · intro h
    by_cases ht : token = ""
    · exact ⟨"Missing token query argument", by simp [LeapServer.connectTunnel, ht]⟩
    · rcases h with h | h
      · exact absurd h ht
      · exact ⟨"Invalid token", by
          simp [LeapServer.connectTunnel, ht,
            connectScan_no_match token upgrade false s.tunnels h]⟩
  · intro conn hup ht hex
    subst hup
    obtain ⟨pre, key, tun, post, hsplit, hpre, htun⟩ := first_with_token token s.tunnels hex
    refine ⟨pre, key, tun, post, hsplit, hpre, htun, ?_⟩
    obtain ⟨h1, h2, h3, h4⟩ := connectScan_first_match token conn pre post key tun hpre htun
    have hret : (connectScan token (.ok conn) false (pre ++ (key, tun) :: post)).returned = true
        ∨ (connectScan token (.ok conn) false (pre ++ (key, tun) :: post)).returned = false := by
      cases (connectScan token (.ok conn) false (pre ++ (key, tun) :: post)).returned
      · exact Or.inr rfl
      · exact Or.inl rfl
    rcases hret with hret | hret <;>
      simp [LeapServer.connectTunnel, ht, hsplit, h1, h2, h3, h4, hret]

/-- A pending tunnel `abc` with token `tok` next to a connected tunnel with
another token: an unknown token changes nothing and is answered 400, the token
`tok` attaches the upgraded connection to `abc` only. -/
theorem connectTunnel_attaches_by_token_witness :
    (∃ msg, LeapServer.connectTunnel
        { config := { Domain := "example.com" },
          tunnels := [("abc", { subdomain := "abc", token := "tok" }),
                      ("def", { subdomain := "def", token := "kot", ws := some { id := 1 } })] }
        "nope" (.ok { id := 2 }) =
      ({ config := { Domain := "example.com" },
          tunnels := [("abc", { subdomain := "abc", token := "tok" }),
                      ("def", { subdomain := "def", token := "kot", ws := some { id := 1 } })] },
        some (.string StatusBadRequest msg []), []))
      ∧ (∃ pre key tun post,
          [("abc", ({ subdomain := "abc", token := "tok" } : Tunnel)),
            ("def", { subdomain := "def", token := "kot", ws := some { id := 1 } })] =
              pre ++ (key, tun) :: post
            ∧ (∀ e ∈ pre, e.2.token ≠ "tok")
            ∧ tun.token = "tok"
            ∧ LeapServer.connectTunnel
                { config := { Domain := "example.com" },
                  tunnels := [("abc", { subdomain := "abc", token := "tok" }),
                    ("def", { subdomain := "def", token := "kot", ws := some { id := 1 } })] }
                "tok" (.ok { id := 2 }) =
              ({ config := { Domain := "example.com" },
                 tunnels := pre ++ (key, { tun with ws := some { id := 2 } }) :: post },
                none, [tun.subdomain])) :=
  ⟨(connectTunnel_attaches_by_token _ "nope" _).1 (Or.inr (by decide)),
   (connectTunnel_attaches_by_token
      { config := { Domain := "example.com" },
        tunnels := [("abc", { subdomain := "abc", token := "tok" }),
          ("def", { subdomain := "def", token := "kot", ws := some { id := 1 } })] }
      "tok" (.ok { id := 2 })).2 { id := 2 } rfl (by decide)
      ⟨("abc", { subdomain := "abc", token := "tok" }), List.mem_cons_self _ _, rfl⟩⟩

/-! ## C9: routing by the Host header -/

/-- C9, as the code behaves: with the relay domain `example.com`, the hosts
`abcexample.com` and `abc.notexample.com` are neither the domain nor end with
`.example.com`, yet `interceptRequest` hands them to `passExternalRequest` with the
tunnel registered under their leftmost label, because the test is
`strings.HasSuffix(host, domain)` without the separating dot. -/
theorem interceptRequest_suffix_without_dot :
    LeapServer.interceptRequest
        { config := { Domain := "example.com" },
          tunnels := [("abcexample", { subdomain := "abcexample", token := "t1" }),
                      ("abc", { subdomain := "abc", token := "t2" })] }
        "abcexample.com" =
        .passExternalRequest "abcexample" { subdomain := "abcexample", token := "t1" }
      ∧ LeapServer.interceptRequest
        { config := { Domain := "example.com" },
          tunnels := [("abcexample", { subdomain := "abcexample", token := "t1" }),
                      ("abc", { subdomain := "abc", token := "t2" })] }
        "abc.notexample.com" =
        .passExternalRequest "abc" { subdomain := "abc", token := "t2" }
      ∧ HasSuffix "abcexample.com" ".example.com" = false
      ∧ HasSuffix "abc.notexample.com" ".example.com" = false
      ∧ "abcexample.com" ≠ "example.com" ∧ "abc.notexample.com" ≠ "example.com" := by
  refine ⟨rfl, rfl, by decide, by decide, by decide, by decide⟩

/-! ## C10: the deadline elapsing while the response is read -/

/-- C10, as the code behaves: for every request with a valid base64 payload, when
the dial and the write succeed and `io.Copy` ends with the deadline exceeded after
collecting the bytes `got` (none when the service never writes), `handleRequest`
discards that error, returns nil and replies `response_data` with the encoding of
`got`; the reply is not `response_error(timeout)`. -/
theorem handleRequest_read_deadline_replies_data (ws : Conn) (w : WSMessage)
    (B got : List Byte) :
    handleRequest { ws with writeFails := false }
        { toWSMessage := w, Data := EncodeToString B }
        { dialOk := true,
          exchange := fun _ =>
            { writeErr := none, copied := got, copyErr := some .deadlineExceeded } } =
      { ws := { ws with writeFails := false,
                        sent := ws.sent ++ [(NewResponseDataMessage (EncodeToString got)).marshal] },
        err := none, dialled := true }
      ∧ (NewResponseDataMessage (EncodeToString got)).marshal ≠
          (NewResponseErrorMessage Timeout).marshal
      ∧ (NewResponseDataMessage (EncodeToString [])).marshal =
          .obj [("type", .str "response_data"), ("response", .str "")] := by
  refine ⟨?_, ?_, rfl⟩
  · simp [handleRequest, DecodeString_EncodeToString, Conn.WriteJSON]
  · simp [ResponseDataMessage.marshal, ResponseErrorMessage.marshal, NewResponseDataMessage,
      NewResponseErrorMessage]

/-! ## C11: the reply of `handleRequest` -/

theorem WriteJSON_appends (ws : Conn) (v : JValue) (h : ws.writeFails = false) :
    (ws.WriteJSON v).1.sent = ws.sent ++ [v] := by
  simp [Conn.WriteJSON, h]

/-- On a channel that accepts writes `handleRequest` appends exactly one message. -/
theorem handleRequest_appends_one (ws : Conn) (data : RequestMessage) (svc : LocalService)
    (h : ws.writeFails = false) :
    ∃ reply, (handleRequest ws data svc).ws.sent = ws.sent ++ [reply] := by
  unfold handleRequest
  cases DecodeString data.Data with
  | error e => exact ⟨_, WriteJSON_appends ws _ h⟩
  | ok bytes =>
    cases hd : svc.dialOk with
    | false => exact ⟨_, by simpa using WriteJSON_appends ws _ h⟩
    | true =>
      cases hw : (svc.exchange bytes).writeErr with
      | none => exact ⟨_, by simpa [hw] using WriteJSON_appends ws _ h⟩
      | some err =>
        cases err with
        | deadlineExceeded => exact ⟨_, by simpa [hw] using WriteJSON_appends ws _ h⟩
        | other => exact ⟨_, by simpa [hw] using WriteJSON_appends ws _ h⟩

/-- C11: for every inbound request message and every outcome of the local service,
`handleRequest` (on a channel that accepts the write) sends exactly one reply: a
payload that is not valid base64 gives `response_error(internal)` and no dial; a
dial failure gives `response_error(unavailable)`; a write failing with the deadline
exceeded gives `response_error(timeout)`; any other write failure gives
`response_error(internal)`; otherwise the reply is `response_data` with the base64
encoding of all bytes read from the local connection. -/
theorem handleRequest_reply (ws : Conn) (data : RequestMessage) (svc : LocalService)
    (h : ws.writeFails = false) :
    (∃ reply, (handleRequest ws data svc).ws.sent = ws.sent ++ [reply])
      ∧ (∀ e, DecodeString data.Data = .error e →
          (handleRequest ws data svc).ws.sent =
              ws.sent ++ [(NewResponseErrorMessage InternalError).marshal]
            ∧ (handleRequest ws data svc).dialled = false)
      ∧ (∀ bytes, DecodeString data.Data = .ok bytes → svc.dialOk = false →
          (handleRequest ws data svc).ws.sent =
            ws.sent ++ [(NewResponseErrorMessage Unavailable).marshal])
      ∧ (∀ bytes, DecodeString data.Data = .ok bytes → svc.dialOk = true →
          (svc.exchange bytes).writeErr = some .deadlineExceeded →
          (handleRequest ws data svc).ws.sent =
            ws.sent ++ [(NewResponseErrorMessage Timeout).marshal])
      ∧ (∀ bytes, DecodeString data.Data = .ok bytes → svc.dialOk = true →
          (svc.exchange bytes).writeErr = some .other →
          (handleRequest ws data svc).ws.sent =
            ws.sent ++ [(NewResponseErrorMessage InternalError).marshal])
      ∧ (∀ bytes, DecodeString data.Data = .ok bytes → svc.dialOk = true →
          (svc.exchange bytes).writeErr = none →
          (handleRequest ws data svc).ws.sent =
            ws.sent ++ [(NewResponseDataMessage
              (EncodeToString (svc.exchange bytes).copied)).marshal]) := by
  refine ⟨handleRequest_appends_one ws data svc h, ?_, ?_, ?_, ?_, ?_⟩
  · intro e he
    simp [handleRequest, he, WriteJSON_appends ws _ h]
  · intro bytes hb hd
    simp [handleRequest, hb, hd, WriteJSON_appends ws _ h]
  · intro bytes hb hd hw
    simp [handleRequest, hb, hd, hw, WriteJSON_appends ws _ h]
  · intro bytes hb hd hw
    simp [handleRequest, hb, hd, hw, WriteJSON_appends ws _ h]
  · intro bytes hb hd hw
    simp [handleRequest, hb, hd, hw, WriteJSON_appends ws _ h]

/-- The request `aGk=` forwarded to a service that answers with the two bytes 72,
105: one reply, `response_data` with `SGk=`. -/
theorem handleRequest_reply_witness :
    (({} : Conn).writeFails = false)
      ∧ (handleRequest {} (NewRequestMessage "aGk=")
          { dialOk := true,
            exchange := fun _ =>
              { writeErr := none, copied := [toByte 72, toByte 105], copyErr := none } }).ws.sent =
        [(NewResponseDataMessage "SGk=").marshal] :=
  ⟨rfl,
    (handleRequest_reply {} (NewRequestMessage "aGk=")
      { dialOk := true,
        exchange := fun _ =>
          { writeErr := none, copied := [toByte 72, toByte 105], copyErr := none } } rfl).2.2.2.2.2
      [toByte 104, toByte 105] (by rfl) rfl rfl⟩

/-! ## C12: the state changes of a client session -/

namespace Client

theorem consistent_start : Session.start.consistent = true := by decide

/-- A step keeps the session consistent, and the state change it makes, if any, is
a chain edge or one of the three side edges. -/
theorem consistent_step (s : Session) (e : Event) (h : s.consistent = true) :
    (s.step e).consistent = true
      ∧ (s.client.state = (s.step e).client.state
          ∨ chainEdge s.client.state (s.step e).client.state = true
          ∨ sideEdge s.client.state (s.step e).client.state = true) := by
  obtain ⟨⟨state, subdomain, notified⟩, pc, reader, ws, dials, pending⟩ := s
  cases e with
  | run =>
    cases pc <;> cases state <;> cases reader <;>
      simp_all [Session.consistent, Session.step, LeapClient.SetState, chainEdge, sideEdge]
  | token result =>
    cases result <;> cases pc <;> cases state <;> cases reader <;>
      simp_all [Session.consistent, Session.step, LeapClient.SetState, chainEdge, sideEdge]
  | dial ok =>
    cases ok <;> cases pc <;> cases state <;> cases reader <;>
      simp_all [Session.consistent, Session.step, LeapClient.SetState, chainEdge, sideEdge]
  | read frame svc =>
    cases hra : readerAction frame <;> cases pc <;> cases state <;> cases reader <;>
      simp_all [Session.consistent, Session.step, LeapClient.SetState, chainEdge, sideEdge]
  | receive =>
    cases pending with
    | none =>
      cases pc <;> cases state <;> cases reader <;>
        simp_all [Session.consistent, Session.step, LeapClient.SetState, chainEdge, sideEdge]
    | some p =>
      cases pc <;> cases state <;> cases reader <;>
        simp_all [Session.consistent, Session.step, LeapClient.SetState, chainEdge, sideEdge]
  | cancel writeErr =>
    cases writeErr <;> cases pc <;> cases state <;> cases reader <;>
      simp_all [Session.consistent, Session.step, LeapClient.SetState, chainEdge, sideEdge]
  | waitOver =>
    cases pc <;> cases state <;> cases reader <;>
      simp_all [Session.consistent, Session.step, LeapClient.SetState, chainEdge, sideEdge]
  | quit =>
    cases pc <;> cases state <;> cases reader <;>
      simp_all [Session.consistent, Session.step, LeapClient.SetState, chainEdge, sideEdge]

theorem consistent_run (events : List Event) :
    ∀ s : Session, s.consistent = true → (s.run events).consistent = true := by
  induction events with
  | nil => intro s h; exact h
  | cons e rest ih =>
    intro s h
    exact ih (s.step e) (consistent_step s e h).1

/-- C12, against the claim as stated: the session `New` returns is in
`Disconnected`, and the first `SetState` of `Run` changes it to `GettingToken`, a
change that leaves `Disconnected` and is none of the four edges; and once
`Connected`, a read error that is no normal closure makes the reader change the
state to `Disconnected` directly; a cancellation taken before the reader's quit
signal then changes `Disconnected` to `Disconnecting`. -/
theorem session_changes_outside_chain :
    Session.start.client.state = .Disconnected
      ∧ (Session.start.step .run).client.state = .GettingToken
      ∧ chainEdge .Disconnected .GettingToken = false
      ∧ (Session.start.run
          [.run, .token (some { Subdomain := "abc", Token := "tok" }), .dial true]).client.state =
        .Connected
      ∧ ((Session.start.run
          [.run, .token (some { Subdomain := "abc", Token := "tok" }), .dial true]).step
            (.read .otherError { dialOk := false, exchange := fun _ =>
              { writeErr := none, copied := [], copyErr := none } })).client.state =
        .Disconnected
      ∧ chainEdge .Connected .Disconnected = false
      ∧ (((Session.start.run
          [.run, .token (some { Subdomain := "abc", Token := "tok" }), .dial true]).step
            (.read .otherError { dialOk := false, exchange := fun _ =>
              { writeErr := none, copied := [], copyErr := none } })).step
            (.cancel false)).client.state =
        .Disconnecting := by
  refine ⟨rfl, rfl, rfl, rfl, rfl, rfl, rfl⟩

/-- C12, amended: after any sequence of events from the session `New` returns,
every step either leaves the state as it is or changes it along one of the four
edges GettingToken->Connecting, Connecting->Connected, Connected->Disconnecting,
Disconnecting->Disconnected, or along one of the three further edges
Disconnected->GettingToken (the first `SetState` of `Run`), Connected->Disconnected
(the reader on an abnormal closure) and Disconnected->Disconnecting (a cancellation
taken after that). -/
theorem session_state_changes (events : List Event) (e : Event) :
    (Session.start.run events).client.state = ((Session.start.run events).step e).client.state
      ∨ chainEdge (Session.start.run events).client.state
          ((Session.start.run events).step e).client.state = true
      ∨ sideEdge (Session.start.run events).client.state
          ((Session.start.run events).step e).client.state = true :=
  (consistent_step _ e (consistent_run events _ consistent_start)).2

end Client

/-! ## C13: what the relay loop hands to `handleRequest` -/

namespace Client

/-- Once `Run` has left the relay loop no step returns to it, and none touches the
channel or dials the local service. -/
theorem step_after_relaying (t : Session) (ev : Event)
    (h : t.pc = .closing ∨ t.pc = .returned) :
    ((t.step ev).pc = .closing ∨ (t.step ev).pc = .returned) ∧ (t.step ev).ws = t.ws
      ∧ (t.step ev).dials = t.dials := by
  obtain ⟨client, pc, reader, ws, dials, pending⟩ := t
  cases ev with
  | run => cases pc <;> simp_all [Session.step]
  | token result => cases result <;> cases pc <;> simp_all [Session.step]
  | dial ok => cases ok <;> cases pc <;> simp_all [Session.step]
  | read frame svc =>
    cases hra : readerAction frame <;> cases pc <;> cases reader <;> simp_all [Session.step]
  | receive => cases pc <;> simp_all [Session.step]
  | cancel writeErr => cases writeErr <;> cases pc <;> simp_all [Session.step]
  | waitOver => cases pc <;> simp_all [Session.step]
  | quit => cases pc <;> cases reader <;> simp_all [Session.step]

/-- C13, against the claim as stated: in a connected session a frame tagged
`response_data` (with no `data` field, so an empty payload) is offered by the
reader and handed to `handleRequest` by `Run`: the local service is dialled and a
reply is sent. The same holds for the frame with the empty tag that the server
writes. -/
theorem relay_forwards_any_tag :
    (Session.start.run
        [.run, .token (some { Subdomain := "abc", Token := "tok" }), .dial true]).pc = .relaying
      ∧ ((Session.start.run
        [.run, .token (some { Subdomain := "abc", Token := "tok" }), .dial true,
         .read (.message (some (NewResponseDataMessage "aGk=").marshal))
           { dialOk := true, exchange := fun _ =>
              { writeErr := none, copied := [toByte 72, toByte 105], copyErr := none } },
         .receive]).dials = 1)
      ∧ ((Session.start.run
        [.run, .token (some { Subdomain := "abc", Token := "tok" }), .dial true,
         .read (.message (some (NewResponseDataMessage "aGk=").marshal))
           { dialOk := true, exchange := fun _ =>
              { writeErr := none, copied := [toByte 72, toByte 105], copyErr := none } },
         .receive]).ws.sent =
          [(NewResponseDataMessage "SGk=").marshal])
      ∧ ((Session.start.run
        [.run, .token (some { Subdomain := "abc", Token := "tok" }), .dial true,
         .read (.message (some (JValue.obj [("type", .str ""), ("data", .str "aGk=")])))
           { dialOk := true, exchange := fun _ =>
              { writeErr := none, copied := [toByte 72, toByte 105], copyErr := none } },
         .receive]).ws.sent =
          [(NewResponseDataMessage "SGk=").marshal]) := by
  refine ⟨rfl, rfl, rfl, rfl⟩

/-- C13, amended: the relay loop does not look at the type tag. In a session that
is relaying, with the reader in `ReadJSON` and a channel that accepts writes, every
inbound message whose first JSON value decodes as a `RequestMessage`, whatever its
tag, is offered by the reader on `dataChan` (nothing else changes); when `Run`
takes it, it is handed to `handleRequest`, which sends exactly one reply and dials
the local service when the payload is valid base64, the state staying as it is;
when `Run` takes the cancellation instead, the message is never handed over: no
dial and no reply. An inbound frame that does not decode is not offered: no dial,
no reply, and the reader sets `Disconnected` and signals quit. -/
theorem relay_hands_every_decodable_message (s : Session) (first : Option JValue)
    (svc : LocalService)
    (hpc : s.pc = .relaying) (hr : s.reader = .reading) (hw : s.ws.writeFails = false) :
    (∀ data, unmarshalRequestMessage first = .ok data →
        s.step (.read (.message first) svc) =
            { s with reader := .sendingData, pending := some (data, svc) }
          ∧ ((s.step (.read (.message first) svc)).step .receive).ws =
              (handleRequest s.ws data svc).ws
          ∧ (∃ reply, ((s.step (.read (.message first) svc)).step .receive).ws.sent =
              s.ws.sent ++ [reply])
          ∧ (∀ bytes, DecodeString data.Data = .ok bytes →
              ((s.step (.read (.message first) svc)).step .receive).dials = s.dials + 1)
          ∧ ((s.step (.read (.message first) svc)).step .receive).client = s.client
          ∧ (∀ writeErr later,
              ((((s.step (.read (.message first) svc)).step (.cancel writeErr)).run
                  later).step .receive).ws = s.ws
                ∧ ((((s.step (.read (.message first) svc)).step (.cancel writeErr)).run
                  later).step .receive).dials = s.dials))
      ∧ (∀ e, unmarshalRequestMessage first = .error e →
          (s.step (.read (.message first) svc)).ws = s.ws
            ∧ (s.step (.read (.message first) svc)).dials = s.dials
            ∧ (s.step (.read (.message first) svc)).pending = s.pending
            ∧ (s.step (.read (.message first) svc)).client.state = .Disconnected
            ∧ (s.step (.read (.message first) svc)).reader = .sendingQuit) := by
  constructor
  · intro data hd
    have hread : s.step (.read (.message first) svc) =
        { s with reader := .sendingData, pending := some (data, svc) } := by
      simp [Session.step, hr, readerAction, hd]
    have hrecv : (s.step (.read (.message first) svc)).step .receive =
        { s with ws := (handleRequest s.ws data svc).ws,
                 dials := if (handleRequest s.ws data svc).dialled then s.dials + 1
                          else s.dials,
                 reader := .reading, pending := none } := by
      rw [hread]
      simp [Session.step, hpc]
    refine ⟨hread, ?_, ?_, ?_, ?_, ?_⟩
    · rw [hrecv]
    · rw [hrecv]
      exact handleRequest_appends_one s.ws data svc hw
    · intro bytes hb
      have hdial : (handleRequest s.ws data svc).dialled = true := by
        unfold handleRequest
        simp only [hb]
        cases svc.dialOk with
        | false => rfl
        | true =>
          cases hwe : (svc.exchange bytes).writeErr with
          | none => simp [hwe]
          | some err => cases err <;> simp [hwe]
      rw [hrecv]
      simp [hdial]
    · rw [hrecv]
    · intro writeErr later
      have hcancel : ∀ evs : List Event, ∀ t : Session,
          (t.pc = .closing ∨ t.pc = .returned) → t.ws = s.ws → t.dials = s.dials →
          (((t.run evs).pc = .closing ∨ (t.run evs).pc = .returned) ∧ (t.run evs).ws = s.ws
            ∧ (t.run evs).dials = s.dials) := by
        intro evs
        induction evs with
        | nil => intro t h1 h2 h3; exact ⟨h1, h2, h3⟩
        | cons ev rest ih =>
          intro t h1 h2 h3
          have hstep := step_after_relaying t ev h1
          exact ih (t.step ev) hstep.1 (hstep.2.1.trans h2) (hstep.2.2.trans h3)
      have h0 : (((s.step (.read (.message first) svc)).step (.cancel writeErr)).pc = .closing
            ∨ ((s.step (.read (.message first) svc)).step (.cancel writeErr)).pc = .returned)
          ∧ ((s.step (.read (.message first) svc)).step (.cancel writeErr)).ws = s.ws
          ∧ ((s.step (.read (.message first) svc)).step (.cancel writeErr)).dials = s.dials := by
        rw [hread]
        cases writeErr <;> simp [Session.step, hpc]
      obtain ⟨l1, l2, l3⟩ := hcancel later _ h0.1 h0.2.1 h0.2.2
      have hlast := step_after_relaying _ .receive l1
      exact ⟨hlast.2.1.trans l2, hlast.2.2.trans l3⟩
  · intro e he
    have hstep : s.step (.read (.message first) svc) =
        { s with client := s.client.SetState .Disconnected, reader := .sendingQuit } := by
      simp [Session.step, hr, readerAction, he]
    rw [hstep]
    refine ⟨rfl, rfl, rfl, ?_, rfl⟩
    simp only [LeapClient.SetState]
    split <;> simp_all

/-- A connected session receives a message tagged `response_error` with the
payload `aGk=`: it is offered, and answered once `Run` takes it. -/
theorem relay_hands_every_decodable_message_witness :
    ∃ reply, (((Session.start.run
        [.run, .token (some { Subdomain := "abc", Token := "tok" }), .dial true]).step
          (.read (.message (some (JValue.obj
              [("type", .str "response_error"), ("data", .str "aGk=")])))
            { dialOk := false, exchange := fun _ =>
                { writeErr := none, copied := [], copyErr := none } })).step .receive).ws.sent =
      (Session.start.run
        [.run, .token (some { Subdomain := "abc", Token := "tok" }), .dial true]).ws.sent
        ++ [reply] :=
  ((relay_hands_every_decodable_message
      (Session.start.run
        [.run, .token (some { Subdomain := "abc", Token := "tok" }), .dial true])
      (some (JValue.obj [("type", .str "response_error"), ("data", .str "aGk=")]))
      { dialOk := false, exchange := fun _ =>
          { writeErr := none, copied := [], copyErr := none } }
      rfl rfl rfl).1
    { toWSMessage := { Type_ := "response_error" }, Data := "aGk=" } rfl).2.2.1

end Client

/-! ## C14: rejected frames in the receive loop of a tunnel -/

/-- A frame that `handleRawMessage` rejects leaves the tunnel as it was. -/
theorem handleRawMessage_rejected_unchanged (t : Tunnel) (data : Raw) (e : HandleError)
    (h : (t.handleRawMessage data).2 = some e) : (t.handleRawMessage data).1 = t := by
  unfold Tunnel.handleRawMessage at h ⊢
  cases hw : unmarshalWSMessage data with
  | error err => simp
  | ok message =>
    simp only [hw] at h ⊢
    by_cases h1 : message.MessageType = ResponseData
    · simp only [h1, if_true] at h ⊢
      cases hr : unmarshalResponseDataMessage data with
      | error err => simp
      | ok r => simp [hr] at h
    · simp only [h1, if_false] at h ⊢
      by_cases h2 : message.MessageType = ResponseError
      · simp only [h2, if_true] at h ⊢
        cases hr : unmarshalResponseErrorMessage data with
        | error err => simp
        | ok r => simp [hr] at h
      · simp [h2]

/-- As long as every read returns a message the loop has not been left: the
channel is open and the registry is as it was. -/
theorem handleTunnelConnection_messages (s : LeapServer) (reads : List Inbound)
    (h : ∀ i ∈ reads, ∃ data, i = .message data) :
    ∀ tun : Tunnel,
      (s.handleTunnelConnection tun reads).returned = false
        ∧ (s.handleTunnelConnection tun reads).wsClosed = false
        ∧ (s.handleTunnelConnection tun reads).server.tunnels = s.tunnels
        ∧ (s.handleTunnelConnection tun reads).reads = reads.length := by
  induction reads with
  | nil => intro tun; exact ⟨rfl, rfl, rfl, rfl⟩
  | cons i rest ih =>
    intro tun
    obtain ⟨data, rfl⟩ := h i (List.mem_cons_self _ _)
    have ih2 := ih (fun j hj => h j (List.mem_cons_of_mem _ hj)) (tun.handleRawMessage data).1
    simp only [LeapServer.handleTunnelConnection, List.length_cons]
    cases (tun.handleRawMessage data).2 <;> simpa using ih2

/-- The deleted key is no longer in the registry. -/
theorem Tunnels.get_delete_self (tunnels : Tunnels) (key : String) :
    (tunnels.delete key).get key = none := by
  induction tunnels with
  | nil => rfl
  | cons e rest ih =>
    obtain ⟨k, v⟩ := e
    by_cases hk : k = key
    · subst hk
      simpa [Tunnels.delete, Tunnels.get, List.filter] using ih
    · have hk2 : (k != key) = true := by simpa using hk
      have hk3 : (key == k) = false := by simpa using fun h : key = k => hk h.symm
      simp only [Tunnels.delete, Tunnels.get, List.filter, hk2, List.lookup, hk3]
      exact ih

/-- C14, against the claim as stated: the receive loop reads a frame that is no
JSON, then a frame tagged `request`, then a `response_data` frame. Both rejected
frames are logged, and the loop goes on: the third frame is read and delivered, the
loop has not been left, the channel is not closed and the tunnel is still in the
registry. -/
theorem receive_loop_continues_after_rejected_frame :
    (LeapServer.handleTunnelConnection
        { config := { Domain := "example.com" },
          tunnels := [("abc", { subdomain := "abc", token := "tok", ws := some { id := 1 } })] }
        { subdomain := "abc", token := "tok", ws := some { id := 1 } }
        [.message none, .message (some (NewRequestMessage "aGk=").marshal),
         .message (some (NewResponseDataMessage "aGk=").marshal)]).returned = false
      ∧ (LeapServer.handleTunnelConnection
        { config := { Domain := "example.com" },
          tunnels := [("abc", { subdomain := "abc", token := "tok", ws := some { id := 1 } })] }
        { subdomain := "abc", token := "tok", ws := some { id := 1 } }
        [.message none, .message (some (NewRequestMessage "aGk=").marshal),
         .message (some (NewResponseDataMessage "aGk=").marshal)]).wsClosed = false
      ∧ (LeapServer.handleTunnelConnection
        { config := { Domain := "example.com" },
          tunnels := [("abc", { subdomain := "abc", token := "tok", ws := some { id := 1 } })] }
        { subdomain := "abc", token := "tok", ws := some { id := 1 } }
        [.message none, .message (some (NewRequestMessage "aGk=").marshal),
         .message (some (NewResponseDataMessage "aGk=").marshal)]).reads = 3
      ∧ (LeapServer.handleTunnelConnection
        { config := { Domain := "example.com" },
          tunnels := [("abc", { subdomain := "abc", token := "tok", ws := some { id := 1 } })] }
        { subdomain := "abc", token := "tok", ws := some { id := 1 } }
        [.message none, .message (some (NewRequestMessage "aGk=").marshal),
         .message (some (NewResponseDataMessage "aGk=").marshal)]).logged.length = 2
      ∧ (LeapServer.handleTunnelConnection
        { config := { Domain := "example.com" },
          tunnels := [("abc", { subdomain := "abc", token := "tok", ws := some { id := 1 } })] }
        { subdomain := "abc", token := "tok", ws := some { id := 1 } }
        [.message none, .message (some (NewRequestMessage "aGk=").marshal),
         .message (some (NewResponseDataMessage "aGk=").marshal)]).tun.responseChan.length = 1
      ∧ ((LeapServer.handleTunnelConnection
        { config := { Domain := "example.com" },
          tunnels := [("abc", { subdomain := "abc", token := "tok", ws := some { id := 1 } })] }
        { subdomain := "abc", token := "tok", ws := some { id := 1 } }
        [.message none, .message (some (NewRequestMessage "aGk=").marshal),
         .message (some (NewResponseDataMessage "aGk=").marshal)]).server.tunnels.get
          "abc").isSome = true := by
  refine ⟨rfl, rfl, rfl, rfl, rfl, rfl⟩

/-- C14, amended: for every inbound frame that `handleRawMessage` rejects, the
frame is dropped (the tunnel, with both slots, is as before), the error is logged,
and the loop goes on with the following reads exactly as it would have without that
frame; as long as reads return messages the loop is not left, the channel is not
closed and the registry is unchanged. The loop stops, the channel is closed and the
tunnel is removed from the registry when a read returns an error. -/
theorem receive_loop_rejected_frame (s : LeapServer) (tun : Tunnel) (data : Raw)
    (rest : List Inbound) :
    (∀ e, (tun.handleRawMessage data).2 = some e →
        (s.handleTunnelConnection tun (.message data :: rest)).tun =
            (s.handleTunnelConnection tun rest).tun
          ∧ (s.handleTunnelConnection tun (.message data :: rest)).server =
            (s.handleTunnelConnection tun rest).server
          ∧ (s.handleTunnelConnection tun (.message data :: rest)).returned =
            (s.handleTunnelConnection tun rest).returned
          ∧ (s.handleTunnelConnection tun (.message data :: rest)).wsClosed =
            (s.handleTunnelConnection tun rest).wsClosed
          ∧ (s.handleTunnelConnection tun (.message data :: rest)).logged =
            e :: (s.handleTunnelConnection tun rest).logged
          ∧ (s.handleTunnelConnection tun (.message data :: rest)).reads =
            (s.handleTunnelConnection tun rest).reads + 1)
      ∧ ((∀ i ∈ rest, ∃ d, i = .message d) →
          (s.handleTunnelConnection tun (.message data :: rest)).returned = false
            ∧ (s.handleTunnelConnection tun (.message data :: rest)).wsClosed = false
            ∧ (s.handleTunnelConnection tun (.message data :: rest)).server.tunnels = s.tunnels
            ∧ (s.handleTunnelConnection tun (.message data :: rest)).reads = rest.length + 1)
      ∧ (∀ code,
          (s.handleTunnelConnection tun (.closeError code :: rest)).returned = true
            ∧ (s.handleTunnelConnection tun (.closeError code :: rest)).wsClosed = true
            ∧ (s.handleTunnelConnection tun (.closeError code :: rest)).server.tunnels =
                s.tunnels.delete tun.subdomain
            ∧ (s.handleTunnelConnection tun (.closeError code :: rest)).server.tunnels.get
                tun.subdomain = none
            ∧ (s.handleTunnelConnection tun (.closeError code :: rest)).reads = 1)
      ∧ ((s.handleTunnelConnection tun (.otherError :: rest)).returned = true
            ∧ (s.handleTunnelConnection tun (.otherError :: rest)).wsClosed = true
            ∧ (s.handleTunnelConnection tun (.otherError :: rest)).server.tunnels =
                s.tunnels.delete tun.subdomain
            ∧ (s.handleTunnelConnection tun (.otherError :: rest)).server.tunnels.get
                tun.subdomain = none
            ∧ (s.handleTunnelConnection tun (.otherError :: rest)).reads = 1) := by
  refine ⟨?_, ?_, ?_, ?_⟩
  · intro e he
    have hun := handleRawMessage_rejected_unchanged tun data e he
    simp [LeapServer.handleTunnelConnection, he, hun]
  · intro hall
    have := handleTunnelConnection_messages s (.message data :: rest)
      (by
        intro i hi
        rcases List.mem_cons.mp hi with rfl | hi
        · exact ⟨data, rfl⟩
        · exact hall i hi) tun
    simpa using this
  · intro code
    exact ⟨rfl, rfl, rfl, Tunnels.get_delete_self _ _, rfl⟩
  · exact ⟨rfl, rfl, rfl, Tunnels.get_delete_self _ _, rfl⟩

/-- A frame that is no JSON followed by a `response_data` frame: the first is
logged and dropped, the second is read and delivered. -/
theorem receive_loop_rejected_frame_witness :
    (LeapServer.handleTunnelConnection { config := { Domain := "example.com" } }
        { subdomain := "abc", token := "tok" }
        [.message none, .message (some (NewResponseDataMessage "aGk=").marshal)]).tun =
      (LeapServer.handleTunnelConnection { config := { Domain := "example.com" } }
        { subdomain := "abc", token := "tok" }
        [.message (some (NewResponseDataMessage "aGk=").marshal)]).tun
      ∧ (LeapServer.handleTunnelConnection { config := { Domain := "example.com" } }
        { subdomain := "abc", token := "tok" }
        [.message none, .message (some (NewResponseDataMessage "aGk=").marshal)]).returned =
          false :=
  ⟨((receive_loop_rejected_frame { config := { Domain := "example.com" } }
      { subdomain := "abc", token := "tok" } none
      [.message (some (NewResponseDataMessage "aGk=").marshal)]).1
        (.unmarshal .invalidJSON) rfl).1,
   ((receive_loop_rejected_frame { config := { Domain := "example.com" } }
      { subdomain := "abc", token := "tok" } none
      [.message (some (NewResponseDataMessage "aGk=").marshal)]).2.1
        (by intro i hi; simp only [List.mem_singleton] at hi; exact ⟨_, hi⟩)).1⟩

end Leap
